import Mathlib

/-!
# btctools::tcpclient::Session

A shallow embedding of `src/tcpclient/Session.cpp`.

* `std::string` is a list of characters (`Str`).
* A `boost::system::error_code` is an `ErrorCode`; `if (ec)` is `ErrorCode.failed`.
* Every member function is a function from the session to the new session and the
  list of `Effect`s it performed, in program order.  A function that dereferences a
  member pointer returns `none` when that pointer is null.
* Every `async_*` call registers one completion handler (`Op`).  The event loop
  (`World`, `deliver`) holds the handlers that are registered and not yet invoked;
  a completion can only be delivered to such a handler, and removes it.
* `BUFFER_SIZE` is declared in `Session.h`; it is a parameter.
* The name lookup belongs to the application's `io_service`; whether
  `resolver.resolve` returns or throws on a query is a parameter (`Resolver`).
-/

namespace btctools.tcpclient

/-- A `std::string`. -/
abbrev Str := List Char

/-- The values of `boost::system::error_code` that the session distinguishes.
`success` is the default-constructed code, `other` is any remaining error. -/
inductive ErrorCode where
  | success
  | operation_aborted
  | eof
  | timed_out
  | other (value : Nat)
  deriving DecidableEq, Repr

/-- The test `if (ec)`: true for every code but `success`. -/
def ErrorCode.failed : ErrorCode → Bool
  | .success => false
  | _ => true

structure Request where
  host_ : Str
  port_ : Str
  content_ : Str
  usrdata_ : Nat
  session_timeout_ : Int
  delay_timeout_ : Int
  deriving DecidableEq, Repr

structure Response where
  usrdata_ : Nat
  content_ : Str
  error_code_ : ErrorCode
  deriving DecidableEq, Repr

/-- A `tcp::socket`, as far as the session looks at it. -/
structure Socket where
  is_open : Bool
  deriving DecidableEq, Repr

/-- A `ssl::stream<tcp::socket>`: its lowest layer and whether `verify_none` was set. -/
structure SslStream where
  is_open : Bool
  verify_none : Bool
  deriving DecidableEq, Repr

/-- A `deadline_timer`, constructed with an expiry in seconds. -/
structure Timer where
  seconds : Int
  deriving DecidableEq, Repr

/-- The data members of `Session` (the references to the io_service and to the
sink are not state). -/
structure Session where
  socketTCP_ : Option Socket
  socketSSL_ : Option SslStream
  request_ : Option Request
  response_ : Option Response
  running_ : Bool
  buffer_ : Str
  session_timer_ : Option Timer
  delay_timer_ : Option Timer
  deriving DecidableEq, Repr

/-- A registered completion handler.  The handler of the delay timer captures
`request` and `session_timeout`; the others capture only the session. -/
inductive Op where
  | delayWait (request : Request) (session_timeout : Int)
  | sessionWait
  | connectTCP
  | connectSSL
  | handshake
  | writeTCP
  | readTCP
  | writeSSL
  | readSSL
  deriving DecidableEq, Repr

/-- What a member function does besides updating the data members.  `system_error` is
the exception of a failed lookup leaving `run`. -/
inductive Effect where
  | set_running (value : Bool)
  | resolve (host port : Str)
  | async_wait_delay (seconds : Int) (request : Request) (session_timeout : Int)
  | async_wait_session (seconds : Int)
  | async_connect_tcp
  | async_connect_ssl
  | async_handshake
  | async_write_tcp (content : Str)
  | async_write_ssl (content : Str)
  | async_read_tcp
  | async_read_ssl
  | timer_cancel
  | close_tcp
  | close_ssl
  | responseYield (response : Response)
  | system_error
  deriving DecidableEq, Repr

/-- The handler an effect registers, if it is an `async_*` call. -/
def Effect.registers : Effect → Option Op
  | .async_wait_delay _ request session_timeout => some (.delayWait request session_timeout)
  | .async_wait_session _ => some .sessionWait
  | .async_connect_tcp => some .connectTCP
  | .async_connect_ssl => some .connectSSL
  | .async_handshake => some .handshake
  | .async_write_tcp _ => some .writeTCP
  | .async_write_ssl _ => some .writeSSL
  | .async_read_tcp => some .readTCP
  | .async_read_ssl => some .readSSL
  | _ => none

/-- Whether the effect is an invocation of the result sink. -/
def Effect.isYield : Effect → Bool
  | .responseYield _ => true
  | _ => false

/-- The number of sink invocations in a trace. -/
def sinkCount (trace : List Effect) : Nat :=
  trace.countP Effect.isYield

/-- `std::string::find(pattern)`: the least position where `pattern` occurs. -/
def find (pattern : Str) : Str → Option Nat
  | [] => if pattern = [] then some 0 else none
  | c :: cs =>
    if pattern.isPrefixOf (c :: cs) then some 0
    else (find pattern cs).map (· + 1)

/-- `boost::algorithm::to_lower` in the default locale. -/
def to_lower (s : Str) : Str :=
  s.map Char.toLower

/-- The first lines of `run(Request*, int)`: the scheme and the host to connect to. -/
def schemeAndHost (host_ : Str) : Str × Str :=
  match find "://".toList host_ with
  | some pos => (to_lower (host_.take pos), host_.drop (pos + 3))
  | none => ("tcp".toList, host_)

/-- The name lookup behind `tcp::resolver`: whether `resolver.resolve({host, port})`
returns its endpoints (`true`) or throws `boost::system::system_error` (`false`). -/
abbrev Resolver := Str → Str → Bool

/-- The constructor: every pointer null, not running, a buffer of `BUFFER_SIZE`
characters. -/
def Session.new (BUFFER_SIZE : Nat) : Session :=
  { socketTCP_ := none, socketSSL_ := none, request_ := none, response_ := none,
    running_ := false, buffer_ := List.replicate BUFFER_SIZE (Char.ofNat 0),
    session_timer_ := none, delay_timer_ := none }

/-- `Session::setTimeout`. -/
def Session.setTimeout (s : Session) (timeout : Int) : Session × List Effect :=
  if timeout > 0 then
    ({ s with session_timer_ := some ⟨timeout⟩ }, [.async_wait_session timeout])
  else
    (s, [])

/-- `Session::run(Request*, int)`.  `resolver.resolve` is the throwing overload and
nothing catches: when the lookup fails the function is left by the exception
(`Effect.system_error`) right after the call, with `running_`, `request_` and
`response_` already set and before `setTimeout`, so no timer, no socket and no handler.
When it returns, `new tcp::socket` followed by `async_connect` leaves a socket that is
open (the connect opens it for its attempt), and so for the encrypted stream, on which
`set_verify_mode(verify_none)` has been called. -/
def Session.run2 (s : Session) (resolves : Resolver) (request : Request)
    (session_timeout : Int) : Session × List Effect :=
  let s := { s with running_ := true }
  let s := { s with request_ := some request }
  let s := { s with response_ := some ⟨request.usrdata_, [], .success⟩ }
  let scheme := (schemeAndHost request.host_).1
  let host := (schemeAndHost request.host_).2
  if resolves host request.port_ then
    let (s, timerEffects) := s.setTimeout session_timeout
    let before := [Effect.set_running true, .resolve host request.port_] ++ timerEffects
    if scheme = "tcp".toList then
      ({ s with socketTCP_ := some ⟨true⟩ }, before ++ [.async_connect_tcp])
    else if scheme = "ssl".toList ∨ scheme = "tls".toList then
      ({ s with socketSSL_ := some ⟨true, true⟩ }, before ++ [.async_connect_ssl])
    else
      (s, before)
  else
    (s, [Effect.set_running true, .resolve host request.port_, .system_error])

/-- `Session::run(Request*, int, int)`. -/
def Session.run3 (s : Session) (resolves : Resolver) (request : Request)
    (session_timeout delay_timeout : Int) : Session × List Effect :=
  if delay_timeout > 0 then
    ({ s with delay_timer_ := some ⟨delay_timeout⟩ },
      [.async_wait_delay delay_timeout request session_timeout])
  else
    s.run2 resolves request session_timeout

/-- `Session::run(Request*)`. -/
def Session.run (s : Session) (resolves : Resolver) (request : Request) :
    Session × List Effect :=
  s.run3 resolves request request.session_timeout_ request.delay_timeout_

/-- The test `socketTCP_ != nullptr && socketTCP_->is_open()`. -/
def Session.tcpIsOpen (s : Session) : Bool :=
  match s.socketTCP_ with
  | some sock => sock.is_open
  | none => false

/-- The test `socketSSL_ != nullptr && socketSSL_->lowest_layer().is_open()`. -/
def Session.sslIsOpen (s : Session) : Bool :=
  match s.socketSSL_ with
  | some sock => sock.is_open
  | none => false

/-- `socketTCP_->close()`. -/
def Session.closeTCP (s : Session) : Session :=
  { s with socketTCP_ := s.socketTCP_.map fun sock => { sock with is_open := false } }

/-- `socketSSL_->lowest_layer().close()`. -/
def Session.closeSSL (s : Session) : Session :=
  { s with socketSSL_ := s.socketSSL_.map fun sock => { sock with is_open := false } }

/-- `Session::clean`. -/
def Session.clean (s : Session) : Session × List Effect :=
  let s := { s with running_ := false }
  let e1 := [Effect.set_running false]
  let e2 := if s.session_timer_.isSome then [Effect.timer_cancel] else []
  let (s, e3) := if s.tcpIsOpen then (s.closeTCP, [Effect.close_tcp]) else (s, [])
  let (s, e4) := if s.sslIsOpen then (s.closeSSL, [Effect.close_ssl]) else (s, [])
  (s, e1 ++ e2 ++ e3 ++ e4)

/-- `Session::yield`. -/
def Session.yield (s : Session) (ec : ErrorCode) : Option (Session × List Effect) :=
  let (s, effects) := s.clean
  match s.response_ with
  | none => none
  | some response =>
    let response := { response with error_code_ := ec }
    some ({ s with response_ := some response }, effects ++ [.responseYield response])

/-- `Session::readContentTCP`: issues the read. -/
def Session.readContentTCP (s : Session) : Option (Session × List Effect) :=
  match s.socketTCP_ with
  | none => none
  | some _ => some (s, [.async_read_tcp])

/-- `Session::readContentSSL`: issues the read. -/
def Session.readContentSSL (s : Session) : Option (Session × List Effect) :=
  match s.socketSSL_ with
  | none => none
  | some _ => some (s, [.async_read_ssl])

/-- `Session::writeContentTCP`: issues the write. -/
def Session.writeContentTCP (s : Session) : Option (Session × List Effect) :=
  match s.socketTCP_, s.request_ with
  | some _, some request => some (s, [.async_write_tcp request.content_])
  | _, _ => none

/-- `Session::writeContentSSL`: issues the write. -/
def Session.writeContentSSL (s : Session) : Option (Session × List Effect) :=
  match s.socketSSL_, s.request_ with
  | some _, some request => some (s, [.async_write_ssl request.content_])
  | _, _ => none

/-- The guard that opens every handler but the delay timer's. -/
def Session.ignores (s : Session) (ec : ErrorCode) : Bool :=
  !s.running_ || ec == .operation_aborted

/-- The handler of the delay timer (in `run(Request*, int, int)`).  An exception of
`run(Request*, int)` leaves the handler and the event loop; the session stays as the
exception left it. -/
def Session.onDelay (s : Session) (resolves : Resolver) (request : Request)
    (session_timeout : Int) (ec : ErrorCode) : Option (Session × List Effect) :=
  if ec == .operation_aborted then some (s, [])
  else some (s.run2 resolves request session_timeout)

/-- The handler of the deadline timer (in `setTimeout`). -/
def Session.onTimeout (s : Session) (ec : ErrorCode) : Option (Session × List Effect) :=
  if s.ignores ec then some (s, [])
  else s.yield .timed_out

/-- The handler of the plain connect. -/
def Session.onConnectTCP (s : Session) (ec : ErrorCode) : Option (Session × List Effect) :=
  if s.ignores ec then some (s, [])
  else if ec.failed then s.yield ec
  else s.writeContentTCP

/-- The handler of the encrypted connect: on success it issues the handshake. -/
def Session.onConnectSSL (s : Session) (ec : ErrorCode) : Option (Session × List Effect) :=
  if s.ignores ec then some (s, [])
  else if ec.failed then s.yield ec
  else
    match s.socketSSL_ with
    | none => none
    | some _ => some (s, [.async_handshake])

/-- The handler of the handshake. -/
def Session.onHandshake (s : Session) (ec : ErrorCode) : Option (Session × List Effect) :=
  if s.ignores ec then some (s, [])
  else if ec.failed then s.yield ec
  else s.writeContentSSL

/-- The handler of the plain write. -/
def Session.onWriteTCP (s : Session) (ec : ErrorCode) : Option (Session × List Effect) :=
  if s.ignores ec then some (s, [])
  else if ec.failed then s.yield ec
  else s.readContentTCP

/-- The handler of the encrypted write. -/
def Session.onWriteSSL (s : Session) (ec : ErrorCode) : Option (Session × List Effect) :=
  if s.ignores ec then some (s, [])
  else if ec.failed then s.yield ec
  else s.readContentSSL

/-- `response_->content_ += string(buffer_, bytes_transferred)`. -/
def Session.append (s : Session) (bytes_transferred : Nat) : Option Session :=
  match s.response_ with
  | none => none
  | some response =>
    let response :=
      { response with content_ := response.content_ ++ s.buffer_.take bytes_transferred }
    some { s with response_ := some response }

/-- The handler of the plain read. -/
def Session.onReadTCP (s : Session) (ec : ErrorCode) (bytes_transferred : Nat) :
    Option (Session × List Effect) :=
  if s.ignores ec then some (s, [])
  else if ec.failed then s.yield ec
  else
    match s.append bytes_transferred with
    | none => none
    | some s => s.readContentTCP

/-- The handler of the encrypted read. -/
def Session.onReadSSL (s : Session) (ec : ErrorCode) (bytes_transferred : Nat) :
    Option (Session × List Effect) :=
  if s.ignores ec then some (s, [])
  else if ec.failed then s.yield ec
  else
    match s.append bytes_transferred with
    | none => none
    | some s => s.readContentSSL

/-- The body of the handler registered as `op`. -/
def Session.handler (s : Session) (resolves : Resolver) (op : Op) (ec : ErrorCode)
    (bytes_transferred : Nat) : Option (Session × List Effect) :=
  match op with
  | .delayWait request session_timeout => s.onDelay resolves request session_timeout ec
  | .sessionWait => s.onTimeout ec
  | .connectTCP => s.onConnectTCP ec
  | .connectSSL => s.onConnectSSL ec
  | .handshake => s.onHandshake ec
  | .writeTCP => s.onWriteTCP ec
  | .readTCP => s.onReadTCP ec bytes_transferred
  | .writeSSL => s.onWriteSSL ec
  | .readSSL => s.onReadSSL ec bytes_transferred

/-- A completion: the handler it is for, its error code and, for a read, the bytes
the transport has for the buffer. -/
structure Event where
  op : Op
  ec : ErrorCode
  data : Str
  deriving DecidableEq, Repr

/-- The session, its registered handlers and everything it has done so far. -/
structure World where
  session : Session
  pending : List Op
  trace : List Effect
  deriving DecidableEq, Repr

/-- Whether the handler is one of the two read handlers. -/
def Op.isRead : Op → Bool
  | .readTCP => true
  | .readSSL => true
  | _ => false

/-- What `async_read_some(buffer(buffer_, BUFFER_SIZE))` leaves in the buffer: at most
`BUFFER_SIZE` characters of `data` at its front. -/
def Session.receive (BUFFER_SIZE : Nat) (s : Session) (data : Str) : Session :=
  { s with buffer_ := data.take BUFFER_SIZE ++ s.buffer_.drop (data.take BUFFER_SIZE).length }

/-- The session a handler finds: for a read, the buffer has been filled. -/
def World.arrive (BUFFER_SIZE : Nat) (w : World) (ev : Event) : Session :=
  if ev.op.isRead then w.session.receive BUFFER_SIZE ev.data else w.session

/-- The event loop delivers one completion.  A completion for a handler that is not
registered cannot be delivered and changes nothing.  `none` is a null dereference. -/
def deliver (BUFFER_SIZE : Nat) (resolves : Resolver) (w : World) (ev : Event) :
    Option World :=
  if ev.op ∈ w.pending then
    match (w.arrive BUFFER_SIZE ev).handler resolves ev.op ev.ec (ev.data.take BUFFER_SIZE).length with
    | none => none
    | some (s, effects) =>
      some { session := s,
             pending := w.pending.erase ev.op ++ effects.filterMap Effect.registers,
             trace := w.trace ++ effects }
  else
    some w

/-- The event loop delivers a sequence of completions. -/
def deliverAll (BUFFER_SIZE : Nat) (resolves : Resolver) (w : World) :
    List Event → Option World
  | [] => some w
  | ev :: evs =>
    match deliver BUFFER_SIZE resolves w ev with
    | none => none
    | some w => deliverAll BUFFER_SIZE resolves w evs

/-- The world right after `run(request)` on a new session has returned, or has been left
by the exception of a failed lookup. -/
def start (BUFFER_SIZE : Nat) (resolves : Resolver) (request : Request) : World :=
  let r := (Session.new BUFFER_SIZE).run resolves request
  { session := r.1, pending := r.2.filterMap Effect.registers, trace := r.2 }

/-- The sink invocations of a trace, in order. -/
def yielded (trace : List Effect) : List Response :=
  trace.filterMap fun
    | .responseYield r => some r
    | _ => none

/-- A lookup that returns for every query. -/
def resolvesAll : Resolver := fun _ _ => true

/-- A lookup that throws for every query. -/
def resolvesNone : Resolver := fun _ _ => false

/-- The fixture of the scenarios in the specification. -/
def pingRequest (host_ : Str) (session_timeout_ delay_timeout_ : Int) : Request :=
  { host_ := host_, port_ := "9000".toList, content_ := "PING".toList, usrdata_ := 7,
    session_timeout_ := session_timeout_, delay_timeout_ := delay_timeout_ }

/-- Whether the handler is the delay timer's. -/
def Op.isDelay : Op → Bool
  | .delayWait _ _ => true
  | _ => false

/-- Whether the handler belongs to an operation on `socketTCP_`. -/
def Op.usesTCP : Op → Bool
  | .connectTCP => true
  | .writeTCP => true
  | .readTCP => true
  | _ => false

/-- Whether the handler belongs to an operation on `socketSSL_`. -/
def Op.usesSSL : Op → Bool
  | .connectSSL => true
  | .handshake => true
  | .writeSSL => true
  | .readSSL => true
  | _ => false

/-- The status a terminating completion stamps on the response: `timed_out` for the
deadline timer, the completion's own code for an I/O operation. -/
def Event.status (ev : Event) : ErrorCode :=
  if ev.op = .sessionWait then .timed_out else ev.ec

/-- A terminating completion: the deadline timer firing without having been aborted,
or an I/O operation completing with an error (end-of-stream included). -/
def Event.terminating (ev : Event) : Bool :=
  !ev.op.isDelay && ev.ec != .operation_aborted && (ev.op == .sessionWait || ev.ec.failed)

/-- Before `run(Request*, int)`: nothing delivered, at most the delay handler registered. -/
def World.Idle (w : World) : Prop :=
  w.session.running_ = false ∧ sinkCount w.trace = 0 ∧ w.pending.length ≤ 1 ∧
    ∀ op ∈ w.pending, op.isDelay = true

/-- Between `run(Request*, int)` and `yield`. -/
def World.Running (w : World) : Prop :=
  w.session.running_ = true ∧ w.session.response_.isSome = true ∧
    w.session.request_.isSome = true ∧ sinkCount w.trace = 0 ∧
    ∀ op ∈ w.pending, op.isDelay = false ∧
      (op.usesTCP = true → w.session.socketTCP_.isSome = true) ∧
      (op.usesSSL = true → w.session.socketSSL_.isSome = true)

/-- After `yield`. -/
def World.Terminated (w : World) : Prop :=
  w.session.running_ = false ∧ sinkCount w.trace = 1 ∧ ∀ op ∈ w.pending, op.isDelay = false

/-- The three phases of a session's life. -/
def World.Inv (w : World) : Prop :=
  w.Idle ∨ w.Running ∨ w.Terminated

/-- The completions of successful reads that return the given chunks, in order. -/
def readEvents (op : Op) (chunks : List Str) : List Event :=
  chunks.map fun c => ⟨op, .success, c⟩

/-- A session in the plain read loop that has received "PO" so far, with the deadline
timer armed. -/
def receivingSession : Session :=
  { socketTCP_ := some ⟨true⟩, socketSSL_ := none,
    request_ := some (pingRequest "tcp://127.0.0.1".toList 5 0),
    response_ := some ⟨7, "PO".toList, .success⟩, running_ := true,
    buffer_ := "PO".toList ++ [Char.ofNat 0, Char.ofNat 0],
    session_timer_ := some ⟨5⟩, delay_timer_ := none }

/-- The session right after `run(request)` with a delay of three seconds. -/
def delayedSession : Session :=
  ((Session.new 4).run resolvesAll (pingRequest "tcp://127.0.0.1".toList 5 3)).1

/-- The scheme is none of the three that `run(Request*, int)` recognizes. -/
def unrecognized (host_ : Str) : Prop :=
  (schemeAndHost host_).1 ≠ "tcp".toList ∧ (schemeAndHost host_).1 ≠ "ssl".toList ∧
    (schemeAndHost host_).1 ≠ "tls".toList

/-- The lookup that `run(Request*, int)` makes for the request returns. -/
def looksUp (resolves : Resolver) (request : Request) : Bool :=
  resolves (schemeAndHost request.host_).2 request.port_

/-- The worlds a run with an unrecognized scheme can be in: no socket, no connect, and
either not started, or running with at most the deadline handler registered (which takes
`session_timeout > 0` and a lookup that returned), or ended by the deadline. -/
def World.Stalled (resolves : Resolver) (request : Request) (w : World) : Prop :=
  w.session.socketTCP_ = none ∧ w.session.socketSSL_ = none ∧
  Effect.async_connect_tcp ∉ w.trace ∧ Effect.async_connect_ssl ∉ w.trace ∧
  ((w.session.running_ = false ∧ yielded w.trace = [] ∧
      (w.pending = [] ∨ w.pending = [.delayWait request request.session_timeout_])) ∨
    (w.session.running_ = true ∧
      w.session.response_ = some ⟨request.usrdata_, [], .success⟩ ∧ yielded w.trace = [] ∧
      (w.pending = [] ∨ (w.pending = [.sessionWait] ∧ 0 < request.session_timeout_ ∧
        looksUp resolves request = true))) ∨
    (w.session.running_ = false ∧ 0 < request.session_timeout_ ∧
      looksUp resolves request = true ∧
      yielded w.trace = [⟨request.usrdata_, [], .timed_out⟩] ∧ w.pending = []))

instance (host_ : Str) : Decidable (unrecognized host_) := by
  unfold unrecognized
  infer_instance

instance (w : World) : Decidable w.Idle := by
  unfold World.Idle
  infer_instance

instance (w : World) : Decidable w.Running := by
  unfold World.Running
  infer_instance

instance (w : World) : Decidable w.Terminated := by
  unfold World.Terminated
  infer_instance

instance (w : World) : Decidable w.Inv := by
  unfold World.Inv
  infer_instance

instance (resolves : Resolver) (request : Request) (w : World) :
    Decidable (w.Stalled resolves request) := by
  unfold World.Stalled
  infer_instance

/-! ## Handlers -/

theorem ignores_aborted (s : Session) : s.ignores .operation_aborted = true := by
  simp [Session.ignores]

theorem ignores_not_running (s : Session) (ec : ErrorCode) (h : s.running_ = false) :
    s.ignores ec = true := by
  simp [Session.ignores, h]

theorem ignores_running (s : Session) (ec : ErrorCode) (h : s.running_ = true)
    (hec : ec ≠ .operation_aborted) : s.ignores ec = false := by
  simp [Session.ignores, h, hec]

theorem handler_aborted (s : Session) (resolves : Resolver) (op : Op) (n : Nat) :
    s.handler resolves op .operation_aborted n = some (s, []) := by
  cases op <;>
    simp [Session.handler, Session.onDelay, Session.onTimeout, Session.onConnectTCP,
      Session.onConnectSSL, Session.onHandshake, Session.onWriteTCP, Session.onWriteSSL,
      Session.onReadTCP, Session.onReadSSL, ignores_aborted]

theorem handler_not_running (s : Session) (resolves : Resolver) (op : Op) (ec : ErrorCode) (n : Nat)
    (h : s.running_ = false) (hop : op.isDelay = false) :
    s.handler resolves op ec n = some (s, []) := by
  cases op <;>
    simp_all [Session.handler, Session.onTimeout, Session.onConnectTCP,
      Session.onConnectSSL, Session.onHandshake, Session.onWriteTCP, Session.onWriteSSL,
      Session.onReadTCP, Session.onReadSSL, Session.ignores, Op.isDelay]

theorem clean_running (s : Session) : s.clean.1.running_ = false := by
  unfold Session.clean
  simp only
  split_ifs <;> simp [Session.closeTCP, Session.closeSSL]

theorem clean_response (s : Session) : s.clean.1.response_ = s.response_ := by
  unfold Session.clean
  simp only
  split_ifs <;> simp [Session.closeTCP, Session.closeSSL]

theorem clean_tcp_closed (s : Session) : s.clean.1.tcpIsOpen = false := by
  unfold Session.clean
  simp only
  split_ifs with h1 h2 h2 <;>
    cases hs : s.socketTCP_ <;>
    simp_all [Session.closeTCP, Session.closeSSL, Session.tcpIsOpen]

theorem clean_ssl_closed (s : Session) : s.clean.1.sslIsOpen = false := by
  unfold Session.clean
  simp only
  split_ifs with h1 h2 h2 <;>
    cases hs : s.socketSSL_ <;>
    simp_all [Session.closeTCP, Session.closeSSL, Session.sslIsOpen]

theorem clean_effects (s : Session) :
    s.clean.2 = [Effect.set_running false] ++
      (if s.session_timer_.isSome then [Effect.timer_cancel] else []) ++
      (if s.tcpIsOpen then [Effect.close_tcp] else []) ++
      (if s.sslIsOpen then [Effect.close_ssl] else []) := by
  unfold Session.clean
  simp only
  split_ifs <;>
    simp_all [Session.closeTCP, Session.closeSSL, Session.sslIsOpen, Session.tcpIsOpen]

theorem yield_eq (s : Session) (r : Response) (ec : ErrorCode) (h : s.response_ = some r) :
    s.yield ec = some ({ s.clean.1 with response_ := some { r with error_code_ := ec } },
      s.clean.2 ++ [.responseYield { r with error_code_ := ec }]) := by
  have hc := clean_response s
  rw [h] at hc
  unfold Session.yield
  simp only [hc]

theorem yield_of_response (s : Session) (ec : ErrorCode) (h : s.response_.isSome = true) :
    ∃ r, s.response_ = some r ∧
      s.yield ec = some ({ s.clean.1 with response_ := some { r with error_code_ := ec } },
        s.clean.2 ++ [.responseYield { r with error_code_ := ec }]) := by
  cases hr : s.response_ with
  | none => simp [hr] at h
  | some r => exact ⟨r, rfl, yield_eq s r ec hr⟩

theorem sinkCount_clean (s : Session) : sinkCount s.clean.2 = 0 := by
  rw [clean_effects]
  unfold sinkCount
  split_ifs <;> simp [Effect.isYield]

theorem registers_clean (s : Session) : s.clean.2.filterMap Effect.registers = [] := by
  rw [clean_effects]
  split_ifs <;> simp [Effect.registers]

/-- In a running session a terminating completion runs `yield` with the status of the
completion. -/
theorem handler_terminating (s : Session) (resolves : Resolver) (ev : Event) (n : Nat)
    (hr : s.running_ = true) (ht : ev.terminating = true) :
    s.handler resolves ev.op ev.ec n = s.yield ev.status := by
  obtain ⟨op, ec, d⟩ := ev
  cases op <;> cases ec <;>
    simp_all [Event.terminating, Event.status, Session.handler, Session.onTimeout,
      Session.onConnectTCP, Session.onConnectSSL, Session.onHandshake, Session.onWriteTCP,
      Session.onWriteSSL, Session.onReadTCP, Session.onReadSSL, Session.ignores, Op.isDelay,
      ErrorCode.failed]

/-- In a running session a successful I/O completion issues exactly one further
operation on the same socket and invokes nothing else. -/
theorem handler_success (s : Session) (resolves : Resolver) (op : Op) (n : Nat)
    (hr : s.running_ = true) (hresp : s.response_.isSome = true)
    (hreq : s.request_.isSome = true) (hd : op.isDelay = false) (hw : op ≠ .sessionWait)
    (htcp : op.usesTCP = true → s.socketTCP_.isSome = true)
    (hssl : op.usesSSL = true → s.socketSSL_.isSome = true) :
    ∃ s' e op', s.handler resolves op .success n = some (s', [e]) ∧ s'.running_ = true ∧
      s'.socketTCP_ = s.socketTCP_ ∧ s'.socketSSL_ = s.socketSSL_ ∧
      s'.request_ = s.request_ ∧ s'.response_.isSome = true ∧
      e.registers = some op' ∧ e.isYield = false ∧ op'.isDelay = false ∧
      (op'.usesTCP = true → op.usesTCP = true) ∧ (op'.usesSSL = true → op.usesSSL = true) := by
  obtain ⟨r, hr'⟩ := Option.isSome_iff_exists.mp hresp
  obtain ⟨q, hq⟩ := Option.isSome_iff_exists.mp hreq
  cases op
  case delayWait => simp [Op.isDelay] at hd
  case sessionWait => exact absurd rfl hw
  case connectTCP =>
    obtain ⟨k, hk⟩ := Option.isSome_iff_exists.mp (htcp rfl)
    refine ⟨s, .async_write_tcp q.content_, .writeTCP, ?_⟩
    simp [Session.handler, Session.onConnectTCP, Session.ignores, hr, ErrorCode.failed,
      Session.writeContentTCP, hk, hq, hr', Effect.registers, Effect.isYield, Op.isDelay,
      Op.usesTCP, Op.usesSSL]
  case connectSSL =>
    obtain ⟨k, hk⟩ := Option.isSome_iff_exists.mp (hssl rfl)
    refine ⟨s, .async_handshake, .handshake, ?_⟩
    simp [Session.handler, Session.onConnectSSL, Session.ignores, hr, ErrorCode.failed,
      hk, hq, hr', Effect.registers, Effect.isYield, Op.isDelay, Op.usesTCP, Op.usesSSL]
  case handshake =>
    obtain ⟨k, hk⟩ := Option.isSome_iff_exists.mp (hssl rfl)
    refine ⟨s, .async_write_ssl q.content_, .writeSSL, ?_⟩
    simp [Session.handler, Session.onHandshake, Session.ignores, hr, ErrorCode.failed,
      Session.writeContentSSL, hk, hq, hr', Effect.registers, Effect.isYield, Op.isDelay,
      Op.usesTCP, Op.usesSSL]
  case writeTCP =>
    obtain ⟨k, hk⟩ := Option.isSome_iff_exists.mp (htcp rfl)
    refine ⟨s, .async_read_tcp, .readTCP, ?_⟩
    simp [Session.handler, Session.onWriteTCP, Session.ignores, hr, ErrorCode.failed,
      Session.readContentTCP, hk, hq, hr', Effect.registers, Effect.isYield, Op.isDelay,
      Op.usesTCP, Op.usesSSL]
  case writeSSL =>
    obtain ⟨k, hk⟩ := Option.isSome_iff_exists.mp (hssl rfl)
    refine ⟨s, .async_read_ssl, .readSSL, ?_⟩
    simp [Session.handler, Session.onWriteSSL, Session.ignores, hr, ErrorCode.failed,
      Session.readContentSSL, hk, hq, hr', Effect.registers, Effect.isYield, Op.isDelay,
      Op.usesTCP, Op.usesSSL]
  case readTCP =>
    obtain ⟨k, hk⟩ := Option.isSome_iff_exists.mp (htcp rfl)
    refine ⟨{ s with response_ := some { r with content_ := r.content_ ++ s.buffer_.take n } },
      .async_read_tcp, .readTCP, ?_⟩
    simp [Session.handler, Session.onReadTCP, Session.ignores, hr, ErrorCode.failed,
      Session.append, Session.readContentTCP, hk, hq, hr', Effect.registers, Effect.isYield,
      Op.isDelay, Op.usesTCP, Op.usesSSL]
  case readSSL =>
    obtain ⟨k, hk⟩ := Option.isSome_iff_exists.mp (hssl rfl)
    refine ⟨{ s with response_ := some { r with content_ := r.content_ ++ s.buffer_.take n } },
      .async_read_ssl, .readSSL, ?_⟩
    simp [Session.handler, Session.onReadSSL, Session.ignores, hr, ErrorCode.failed,
      Session.append, Session.readContentSSL, hk, hq, hr', Effect.registers, Effect.isYield,
      Op.isDelay, Op.usesTCP, Op.usesSSL]

/-- Every completion is aborted, terminating, or a success of an I/O operation or of
the delay timer. -/
theorem event_cases (ev : Event) (hd : ev.op.isDelay = false) :
    ev.ec = .operation_aborted ∨ ev.terminating = true ∨
      (ev.ec = .success ∧ ev.op ≠ .sessionWait) := by
  obtain ⟨op, ec, d⟩ := ev
  cases op <;> cases ec <;> simp_all [Event.terminating, ErrorCode.failed, Op.isDelay]

theorem run2_running (s : Session) (resolves : Resolver) (request : Request) (t : Int) :
    (s.run2 resolves request t).1.running_ = true ∧
      (s.run2 resolves request t).1.response_ = some ⟨request.usrdata_, [], .success⟩ ∧
      (s.run2 resolves request t).1.request_ = some request ∧
      (s.run2 resolves request t).1.buffer_ = s.buffer_ ∧
      (s.run2 resolves request t).1.delay_timer_ = s.delay_timer_ := by
  unfold Session.run2 Session.setTimeout
  simp only
  split_ifs <;> simp

theorem run2_sinkCount (s : Session) (resolves : Resolver) (request : Request) (t : Int) :
    sinkCount (s.run2 resolves request t).2 = 0 := by
  unfold Session.run2 Session.setTimeout sinkCount
  simp only
  split_ifs <;> simp [Effect.isYield]

theorem run2_registers (s : Session) (resolves : Resolver) (request : Request) (t : Int) :
    ∀ op ∈ (s.run2 resolves request t).2.filterMap Effect.registers, op.isDelay = false ∧
      (op.usesTCP = true → (s.run2 resolves request t).1.socketTCP_.isSome = true) ∧
      (op.usesSSL = true → (s.run2 resolves request t).1.socketSSL_.isSome = true) := by
  unfold Session.run2 Session.setTimeout
  simp only
  split_ifs <;> simp [Effect.registers, Op.isDelay, Op.usesTCP, Op.usesSSL]

/-! ## The event loop -/

theorem arrive_fields (B : Nat) (w : World) (ev : Event) :
    (w.arrive B ev).running_ = w.session.running_ ∧
      (w.arrive B ev).response_ = w.session.response_ ∧
      (w.arrive B ev).request_ = w.session.request_ ∧
      (w.arrive B ev).socketTCP_ = w.session.socketTCP_ ∧
      (w.arrive B ev).socketSSL_ = w.session.socketSSL_ ∧
      (w.arrive B ev).session_timer_ = w.session.session_timer_ ∧
      (w.arrive B ev).delay_timer_ = w.session.delay_timer_ := by
  unfold World.arrive Session.receive
  split_ifs <;> simp

theorem arrive_not_read (B : Nat) (w : World) (ev : Event) (h : ev.op.isRead = false) :
    w.arrive B ev = w.session := by
  simp [World.arrive, h]

theorem deliver_not_pending (B : Nat) (resolves : Resolver) (w : World) (ev : Event) (h : ev.op ∉ w.pending) :
    deliver B resolves w ev = some w := by
  simp [deliver, h]

theorem deliver_pending (B : Nat) (resolves : Resolver) (w : World) (ev : Event) (s : Session)
    (effects : List Effect) (h : ev.op ∈ w.pending)
    (hh : (w.arrive B ev).handler resolves ev.op ev.ec (ev.data.take B).length = some (s, effects)) :
    deliver B resolves w ev = some ⟨s, w.pending.erase ev.op ++ effects.filterMap Effect.registers,
      w.trace ++ effects⟩ := by
  unfold deliver
  rw [if_pos h, hh]

theorem sinkCount_append (a b : List Effect) : sinkCount (a ++ b) = sinkCount a + sinkCount b := by
  simp [sinkCount, List.countP_append]

theorem yielded_append (a b : List Effect) : yielded (a ++ b) = yielded a ++ yielded b := by
  simp [yielded, List.filterMap_append]

theorem yielded_nil_of_sinkCount (a : List Effect) (h : sinkCount a = 0) : yielded a = [] := by
  induction a with
  | nil => rfl
  | cons e es ih =>
    cases e <;> simp_all [sinkCount, yielded, Effect.isYield, List.countP_cons]

/-- After `yield` nothing the event loop delivers reaches the sink or the response. -/
theorem deliver_terminated (B : Nat) (resolves : Resolver) (w : World) (ev : Event) (h : w.Terminated) :
    ∃ w', deliver B resolves w ev = some w' ∧ w'.Terminated ∧ w'.trace = w.trace ∧
      w'.session.response_ = w.session.response_ := by
  by_cases hp : ev.op ∈ w.pending
  · have hd := h.2.2 _ hp
    have hf := arrive_fields B w ev
    have hh := handler_not_running (w.arrive B ev) resolves ev.op ev.ec (ev.data.take B).length
      (hf.1.trans h.1) hd
    refine ⟨_, deliver_pending B resolves w ev _ _ hp hh, ⟨?_, ?_, ?_⟩, ?_, ?_⟩
    · exact hf.1.trans h.1
    · simpa using h.2.1
    · intro op hop
      simp only [List.filterMap_nil, List.append_nil] at hop
      exact h.2.2 _ (List.mem_of_mem_erase hop)
    · simp
    · exact hf.2.1
  · exact ⟨w, deliver_not_pending B resolves w ev hp, h, rfl, rfl⟩

/-- Before `run(Request*, int)` only the delay timer can complete. -/
theorem deliver_idle (B : Nat) (resolves : Resolver) (w : World) (ev : Event) (h : w.Idle) :
    ∃ w', deliver B resolves w ev = some w' ∧ (w'.Idle ∨ w'.Running) := by
  by_cases hp : ev.op ∈ w.pending
  · obtain ⟨hrun, hsink, hlen, hall⟩ := h
    have hd := hall _ hp
    have hpend : w.pending = [ev.op] := by
      match hw : w.pending, hlen, hp with
      | [a], _, hp => simp [hw] at hp; rw [hp]
    have herase : w.pending.erase ev.op = [] := by simp [hpend]
    obtain ⟨op, ec, d⟩ := ev
    cases op <;> simp [Op.isDelay] at hd
    rename_i request t
    have hnr : (Op.delayWait request t).isRead = false := rfl
    have ha := arrive_not_read B w ⟨.delayWait request t, ec, d⟩ hnr
    by_cases hec : ec = .operation_aborted
    · have hh : (w.arrive B ⟨.delayWait request t, ec, d⟩).handler resolves (.delayWait request t) ec
          (d.take B).length = some (w.session, []) := by
        rw [ha, hec]; exact handler_aborted _ resolves _ _
      refine ⟨_, deliver_pending B resolves w _ _ _ hp hh, Or.inl ⟨hrun, ?_, ?_, ?_⟩⟩
      · simpa using hsink
      · simp [herase]
      · simp [herase]
    · have hh : (w.arrive B ⟨.delayWait request t, ec, d⟩).handler resolves (.delayWait request t) ec
          (d.take B).length = some ((w.session.run2 resolves request t).1, (w.session.run2 resolves request t).2) := by
        rw [ha]; simp [Session.handler, Session.onDelay, hec]
      have h2 := run2_running w.session resolves request t
      refine ⟨_, deliver_pending B resolves w _ (w.session.run2 resolves request t).1 (w.session.run2 resolves request t).2
        hp hh, Or.inr ⟨h2.1, ?_, ?_, ?_, ?_⟩⟩
      · simp [h2.2.1]
      · simp [h2.2.2.1]
      · simp [sinkCount_append, hsink, run2_sinkCount]
      · intro op hop
        simp only [herase, List.nil_append] at hop
        exact run2_registers w.session resolves request t op hop
  · exact ⟨w, deliver_not_pending B resolves w ev hp, Or.inl h⟩

theorem clean_effects_arrive (B : Nat) (w : World) (ev : Event) :
    (w.arrive B ev).clean.2 = w.session.clean.2 := by
  have hf := arrive_fields B w ev
  rw [clean_effects, clean_effects]
  simp [Session.tcpIsOpen, Session.sslIsOpen, hf.2.2.2.1, hf.2.2.2.2.1, hf.2.2.2.2.2.1]

/-- What a terminating completion does to a running session. -/
theorem deliver_running_terminating (B : Nat) (resolves : Resolver) (w : World) (ev : Event) (h : w.Running)
    (hp : ev.op ∈ w.pending) (ht : ev.terminating = true) :
    ∃ w' r, deliver B resolves w ev = some w' ∧ w.session.response_ = some r ∧ w'.Terminated ∧
      w'.session.response_ = some { r with error_code_ := ev.status } ∧
      w'.trace = w.trace ++ (w.session.clean.2 ++
        [.responseYield { r with error_code_ := ev.status }]) ∧
      w'.session.tcpIsOpen = false ∧ w'.session.sslIsOpen = false := by
  obtain ⟨hrun, hresp, hreq, hsink, hall⟩ := h
  have hf := arrive_fields B w ev
  obtain ⟨r, hr, hy⟩ := yield_of_response (w.arrive B ev) ev.status (hf.2.1 ▸ hresp)
  have hh := handler_terminating (w.arrive B ev) resolves ev (ev.data.take B).length
    (hf.1.trans hrun) ht
  rw [hy] at hh
  refine ⟨_, r, deliver_pending B resolves w ev _ _ hp hh, hf.2.1 ▸ hr, ⟨?_, ?_, ?_⟩, rfl, ?_, ?_, ?_⟩
  · exact clean_running _
  · show sinkCount (w.trace ++ ((w.arrive B ev).clean.2 ++ [Effect.responseYield _])) = 1
    rw [sinkCount_append, sinkCount_append, hsink, sinkCount_clean]
    simp [sinkCount, Effect.isYield]
  · intro op hop
    simp only [List.filterMap_append, registers_clean, List.filterMap_cons, Effect.registers,
      List.filterMap_nil, List.append_nil] at hop
    exact (hall _ (List.mem_of_mem_erase hop)).1
  · simp only [clean_effects_arrive]
  · have := clean_tcp_closed (w.arrive B ev)
    simpa [Session.tcpIsOpen] using this
  · have := clean_ssl_closed (w.arrive B ev)
    simpa [Session.sslIsOpen] using this

/-- A running session stays running or terminates. -/
theorem deliver_running (B : Nat) (resolves : Resolver) (w : World) (ev : Event) (h : w.Running) :
    ∃ w', deliver B resolves w ev = some w' ∧ (w'.Running ∨ w'.Terminated) := by
  by_cases hp : ev.op ∈ w.pending
  · have hw := h
    obtain ⟨hrun, hresp, hreq, hsink, hall⟩ := h
    have hf := arrive_fields B w ev
    obtain ⟨hd, htcp, hssl⟩ := hall _ hp
    rcases event_cases ev hd with hab | ht | ⟨hok, hnw⟩
    · have hh := handler_aborted (w.arrive B ev) resolves ev.op (ev.data.take B).length
      rw [← hab] at hh
      refine ⟨_, deliver_pending B resolves w ev _ _ hp hh, Or.inl ⟨hf.1.trans hrun, ?_, ?_, ?_, ?_⟩⟩
      · simpa [hf.2.1] using hresp
      · simpa [hf.2.2.1] using hreq
      · simpa using hsink
      · intro op hop
        simp only [List.filterMap_nil, List.append_nil] at hop
        have := hall _ (List.mem_of_mem_erase hop)
        simpa [hf.2.2.2.1, hf.2.2.2.2.1] using this
    · obtain ⟨w', r, hdel, -, hterm, -⟩ := deliver_running_terminating B resolves w ev hw hp ht
      exact ⟨w', hdel, Or.inr hterm⟩
    · obtain ⟨s', e, op', hh, hr', ht', hs', hq', hresp', hreg, hny, hnd, hut, hus⟩ :=
        handler_success (w.arrive B ev) resolves ev.op (ev.data.take B).length (hf.1.trans hrun)
          (hf.2.1 ▸ hresp) (hf.2.2.1 ▸ hreq) hd hnw
          (by simpa [hf.2.2.2.1] using htcp) (by simpa [hf.2.2.2.2.1] using hssl)
      rw [← hok] at hh
      refine ⟨_, deliver_pending B resolves w ev _ _ hp hh, Or.inl ⟨hr', hresp', ?_, ?_, ?_⟩⟩
      · simpa [hq', hf.2.2.1] using hreq
      · show sinkCount (w.trace ++ [e]) = 0
        rw [sinkCount_append, hsink]
        simp [sinkCount, hny]
      · intro op hop
        simp only [List.filterMap_cons, hreg, List.filterMap_nil, List.mem_append,
          List.mem_singleton] at hop
        rcases hop with hop | rfl
        · have := hall _ (List.mem_of_mem_erase hop)
          simpa [ht', hs', hf.2.2.2.1, hf.2.2.2.2.1] using this
        · refine ⟨hnd, fun hu => ?_, fun hu => ?_⟩
          · simpa [ht', hf.2.2.2.1] using htcp (hut hu)
          · simpa [hs', hf.2.2.2.2.1] using hssl (hus hu)
  · exact ⟨w, deliver_not_pending B resolves w ev hp, Or.inl h⟩

/-- The phases are preserved by every delivery, and no delivery dereferences null. -/
theorem deliver_inv (B : Nat) (resolves : Resolver) (w : World) (ev : Event) (h : w.Inv) :
    ∃ w', deliver B resolves w ev = some w' ∧ w'.Inv := by
  rcases h with h | h | h
  · obtain ⟨w', hd, h'⟩ := deliver_idle B resolves w ev h
    exact ⟨w', hd, h'.elim Or.inl (fun x => Or.inr (Or.inl x))⟩
  · obtain ⟨w', hd, h'⟩ := deliver_running B resolves w ev h
    exact ⟨w', hd, Or.inr h'⟩
  · obtain ⟨w', hd, h', -⟩ := deliver_terminated B resolves w ev h
    exact ⟨w', hd, Or.inr (Or.inr h')⟩

theorem deliverAll_inv (B : Nat) (resolves : Resolver) (evs : List Event) (w : World) (h : w.Inv) :
    ∃ w', deliverAll B resolves w evs = some w' ∧ w'.Inv := by
  induction evs generalizing w with
  | nil => exact ⟨w, rfl, h⟩
  | cons ev evs ih =>
    obtain ⟨w1, hd, h1⟩ := deliver_inv B resolves w ev h
    obtain ⟨w', hd', h'⟩ := ih w1 h1
    exact ⟨w', by simp [deliverAll, hd, hd'], h'⟩

theorem start_inv (B : Nat) (resolves : Resolver) (request : Request) : (start B resolves request).Inv := by
  unfold start Session.run Session.run3
  by_cases hd : request.delay_timeout_ > 0
  · left
    simp [hd, World.Idle, Session.new, sinkCount, Effect.isYield, Effect.registers, Op.isDelay]
  · right; left
    simp only [hd, if_false]
    have h2 := run2_running (Session.new B) resolves request request.session_timeout_
    refine ⟨h2.1, ?_, ?_, run2_sinkCount _ resolves _ _, run2_registers _ resolves _ _⟩
    · simp [h2.2.1]
    · simp [h2.2.2.1]

theorem inv_sinkCount (w : World) (h : w.Inv) : sinkCount w.trace ≤ 1 := by
  rcases h with h | h | h
  · exact h.2.1.le.trans (Nat.zero_le 1)
  · exact h.2.2.2.1.le.trans (Nat.zero_le 1)
  · exact h.2.1.le

theorem inv_running (w : World) (h : w.Inv) (hr : w.session.running_ = true) : w.Running := by
  rcases h with h | h | h
  · simp [h.1] at hr
  · exact h
  · simp [h.1] at hr

theorem inv_yielded (w : World) (h : w.Inv) (hs : sinkCount w.trace = 1) : w.Terminated := by
  rcases h with h | h | h
  · simp [h.2.1] at hs
  · simp [h.2.2.2.1] at hs
  · exact h

theorem deliverAll_append (B : Nat) (resolves : Resolver) (a b : List Event) (w : World) :
    deliverAll B resolves w (a ++ b) = (deliverAll B resolves w a).bind fun w' => deliverAll B resolves w' b := by
  induction a generalizing w with
  | nil => rfl
  | cons ev a ih =>
    simp only [List.cons_append, deliverAll]
    cases deliver B resolves w ev with
    | none => rfl
    | some w1 => exact ih w1

theorem mem_erase_append_self (ops : List Op) (op x : Op) (h : op ∈ ops) :
    x ∈ ops.erase op ++ [op] ↔ x ∈ ops := by
  constructor
  · intro hx
    rcases List.mem_append.mp hx with hx | hx
    · exact List.mem_of_mem_erase hx
    · rw [List.mem_singleton.mp hx]; exact h
  · intro hx
    by_cases hxo : x = op
    · exact List.mem_append.mpr (Or.inr (List.mem_singleton.mpr hxo))
    · exact List.mem_append.mpr (Or.inl ((List.mem_erase_of_ne hxo).mpr hx))

/-- One successful read appends exactly the chunk and issues the next read. -/
theorem deliver_read (B : Nat) (resolves : Resolver) (w : World) (op : Op) (c : Str) (r : Response)
    (hop : op = .readTCP ∨ op = .readSSL) (hw : w.Running) (hp : op ∈ w.pending)
    (hr : w.session.response_ = some r) (hc : c.length ≤ B) :
    ∃ w', deliver B resolves w ⟨op, .success, c⟩ = some w' ∧ w'.Running ∧
      (∀ x, x ∈ w'.pending ↔ x ∈ w.pending) ∧
      w'.session.response_ = some { r with content_ := r.content_ ++ c } ∧
      w'.trace = w.trace ++ [if op = .readTCP then .async_read_tcp else .async_read_ssl] := by
  obtain ⟨hrun, hresp, hreq, hsink, hall⟩ := hw
  obtain ⟨hd, htcp, hssl⟩ := hall _ hp
  obtain ⟨q, hq⟩ := Option.isSome_iff_exists.mp hreq
  have htake : c.take B = c := List.take_of_length_le hc
  rcases hop with rfl | rfl
  · obtain ⟨k, hk⟩ := Option.isSome_iff_exists.mp (htcp rfl)
    have hh : (w.arrive B ⟨.readTCP, .success, c⟩).handler resolves .readTCP .success (c.take B).length =
        some ({ w.session with
          buffer_ := c ++ w.session.buffer_.drop c.length,
          response_ := some { r with content_ := r.content_ ++ c } }, [.async_read_tcp]) := by
      simp [World.arrive, Op.isRead, Session.receive, Session.handler, Session.onReadTCP,
        Session.ignores, hrun, ErrorCode.failed, Session.append, hr, Session.readContentTCP,
        hk, htake]
    refine ⟨_, deliver_pending B resolves w ⟨.readTCP, .success, c⟩ _ _ hp hh, ⟨hrun, rfl, hreq, ?_, ?_⟩,
      ?_, rfl, ?_⟩
    · show sinkCount (w.trace ++ [Effect.async_read_tcp]) = 0
      rw [sinkCount_append, hsink]; rfl
    · intro x hx
      exact hall x ((mem_erase_append_self w.pending .readTCP x hp).mp hx)
    · intro x
      exact mem_erase_append_self w.pending .readTCP x hp
    · simp
  · obtain ⟨k, hk⟩ := Option.isSome_iff_exists.mp (hssl rfl)
    have hh : (w.arrive B ⟨.readSSL, .success, c⟩).handler resolves .readSSL .success (c.take B).length =
        some ({ w.session with
          buffer_ := c ++ w.session.buffer_.drop c.length,
          response_ := some { r with content_ := r.content_ ++ c } }, [.async_read_ssl]) := by
      simp [World.arrive, Op.isRead, Session.receive, Session.handler, Session.onReadSSL,
        Session.ignores, hrun, ErrorCode.failed, Session.append, hr, Session.readContentSSL,
        hk, htake]
    refine ⟨_, deliver_pending B resolves w ⟨.readSSL, .success, c⟩ _ _ hp hh, ⟨hrun, rfl, hreq, ?_, ?_⟩,
      ?_, rfl, ?_⟩
    · show sinkCount (w.trace ++ [Effect.async_read_ssl]) = 0
      rw [sinkCount_append, hsink]; rfl
    · intro x hx
      exact hall x ((mem_erase_append_self w.pending .readSSL x hp).mp hx)
    · intro x
      exact mem_erase_append_self w.pending .readSSL x hp
    · simp

/-- The read loop: the body grows by the chunks, in order. -/
theorem deliver_reads (B : Nat) (resolves : Resolver) (op : Op) (chunks : List Str) (w : World) (r : Response)
    (hop : op = .readTCP ∨ op = .readSSL) (hw : w.Running) (hp : op ∈ w.pending)
    (hr : w.session.response_ = some r) (hc : ∀ c ∈ chunks, c.length ≤ B) :
    ∃ w', deliverAll B resolves w (readEvents op chunks) = some w' ∧ w'.Running ∧
      (∀ x, x ∈ w'.pending ↔ x ∈ w.pending) ∧
      w'.session.response_ = some { r with content_ := r.content_ ++ chunks.flatten } := by
  induction chunks generalizing w r with
  | nil => exact ⟨w, rfl, hw, fun _ => Iff.rfl, by simp [hr]⟩
  | cons c cs ih =>
    obtain ⟨w1, hd1, hw1, hp1, hr1, -⟩ :=
      deliver_read B resolves w op c r hop hw hp hr (hc c (List.mem_cons_self _ _))
    obtain ⟨w', hd', hw', hp', hr'⟩ :=
      ih w1 _ hw1 ((hp1 op).mpr hp) hr1 (fun x hx => hc x (List.mem_cons_of_mem _ hx))
    refine ⟨w', ?_, hw', fun x => (hp' x).trans (hp1 x), ?_⟩
    · simp [readEvents, deliverAll, hd1] at hd' ⊢
      exact hd'
    · simpa [List.append_assoc] using hr'

/-- The read loop followed by one terminating completion. -/
theorem reads_then_terminate (B : Nat) (resolves : Resolver) (op : Op) (chunks : List Str) (last : Event) (w : World)
    (r : Response) (hop : op = .readTCP ∨ op = .readSSL) (hw : w.Running)
    (hp : op ∈ w.pending) (hr : w.session.response_ = some r)
    (hc : ∀ c ∈ chunks, c.length ≤ B) (hl : last.op ∈ w.pending)
    (ht : last.terminating = true) :
    ∃ w', deliverAll B resolves w (readEvents op chunks ++ [last]) = some w' ∧
      yielded w'.trace = [⟨r.usrdata_, r.content_ ++ chunks.flatten, last.status⟩] ∧
      w'.session.running_ = false := by
  obtain ⟨w1, hd1, hw1, hp1, hr1⟩ := deliver_reads B resolves op chunks w r hop hw hp hr hc
  obtain ⟨w', r', hd', hr', hterm, -, htr, -⟩ :=
    deliver_running_terminating B resolves w1 last hw1 ((hp1 _).mpr hl) ht
  rw [hr1] at hr'
  cases hr'
  refine ⟨w', ?_, ?_, hterm.1⟩
  · rw [deliverAll_append, hd1]
    simp [deliverAll, hd']
  · rw [htr, yielded_append, yielded_append,
      yielded_nil_of_sinkCount _ hw1.2.2.2.1, yielded_nil_of_sinkCount _ (sinkCount_clean _)]
    rfl

/-- With the plain scheme and no delay, a successful connect and write lead to the
read loop with an empty body. -/
theorem receiving_tcp (B : Nat) (resolves : Resolver) (request : Request) (d1 d2 : Str)
    (hd : request.delay_timeout_ ≤ 0)
    (hres : resolves (schemeAndHost request.host_).2 request.port_ = true)
    (hs : (schemeAndHost request.host_).1 = "tcp".toList) :
    ∃ w, deliverAll B resolves (start B resolves request)
        [⟨.connectTCP, .success, d1⟩, ⟨.writeTCP, .success, d2⟩] = some w ∧
      w.Running ∧ Op.readTCP ∈ w.pending ∧
      w.session.response_ = some ⟨request.usrdata_, [], .success⟩ ∧
      (0 < request.session_timeout_ → Op.sessionWait ∈ w.pending) := by
  have hd' : ¬ (request.delay_timeout_ > 0) := not_lt.mpr hd
  by_cases ht : request.session_timeout_ > 0 <;>
  · cases h : deliverAll B resolves (start B resolves request)
        [⟨.connectTCP, .success, d1⟩, ⟨.writeTCP, .success, d2⟩] with
    | none =>
      simp [start, Session.run, Session.run3, Session.run2, Session.setTimeout, hd', hs, ht, hres,
        deliverAll, deliver, World.arrive, Op.isRead, Session.handler, Session.onConnectTCP,
        Session.onWriteTCP, Session.ignores, ErrorCode.failed, Session.writeContentTCP,
        Session.readContentTCP, Effect.registers, Session.new] at h
    | some w =>
      simp [start, Session.run, Session.run3, Session.run2, Session.setTimeout, hd', hs, ht, hres,
        deliverAll, deliver, World.arrive, Op.isRead, Session.handler, Session.onConnectTCP,
        Session.onWriteTCP, Session.ignores, ErrorCode.failed, Session.writeContentTCP,
        Session.readContentTCP, Effect.registers, Session.new] at h
      subst h
      simp [World.Running, sinkCount, Effect.isYield, Op.isDelay, Op.usesTCP, Op.usesSSL, ht]

/-- With the encrypted scheme and no delay, a successful connect, handshake and write
lead to the read loop with an empty body. -/
theorem receiving_ssl (B : Nat) (resolves : Resolver) (request : Request) (d1 d2 d3 : Str)
    (hd : request.delay_timeout_ ≤ 0)
    (hres : resolves (schemeAndHost request.host_).2 request.port_ = true)
    (hs : (schemeAndHost request.host_).1 = "ssl".toList ∨
      (schemeAndHost request.host_).1 = "tls".toList) :
    ∃ w, deliverAll B resolves (start B resolves request)
        [⟨.connectSSL, .success, d1⟩, ⟨.handshake, .success, d2⟩,
          ⟨.writeSSL, .success, d3⟩] = some w ∧
      w.Running ∧ Op.readSSL ∈ w.pending ∧
      w.session.response_ = some ⟨request.usrdata_, [], .success⟩ ∧
      (0 < request.session_timeout_ → Op.sessionWait ∈ w.pending) := by
  have hd' : ¬ (request.delay_timeout_ > 0) := not_lt.mpr hd
  rcases hs with hs | hs <;>
  by_cases ht : request.session_timeout_ > 0 <;>
  · cases h : deliverAll B resolves (start B resolves request)
        [⟨.connectSSL, .success, d1⟩, ⟨.handshake, .success, d2⟩,
          ⟨.writeSSL, .success, d3⟩] with
    | none =>
      simp [start, Session.run, Session.run3, Session.run2, Session.setTimeout, hd', hs, ht, hres,
        deliverAll, deliver, World.arrive, Op.isRead, Session.handler, Session.onConnectSSL,
        Session.onHandshake, Session.onWriteSSL, Session.ignores, ErrorCode.failed,
        Session.writeContentSSL, Session.readContentSSL, Effect.registers, Session.new] at h
    | some w =>
      simp [start, Session.run, Session.run3, Session.run2, Session.setTimeout, hd', hs, ht, hres,
        deliverAll, deliver, World.arrive, Op.isRead, Session.handler, Session.onConnectSSL,
        Session.onHandshake, Session.onWriteSSL, Session.ignores, ErrorCode.failed,
        Session.writeContentSSL, Session.readContentSSL, Effect.registers, Session.new] at h
      subst h
      simp [World.Running, sinkCount, Effect.isYield, Op.isDelay, Op.usesTCP, Op.usesSSL, ht]

/-! ## C1 -/

/-- C1: after `run(request)` on a new session, whatever completions the event loop
delivers, no delivery dereferences null and the sink has been invoked at most once; if
the session is running, a terminating completion for a registered handler invokes the
sink in that very delivery, once, with the session's response stamped with the
completion's status; and once the sink has been invoked no completion (the aborted
completion of the cancelled deadline timer included) adds anything to the trace. -/
theorem sink_invoked_at_most_once (B : Nat) (resolves : Resolver) (request : Request) (evs : List Event) :
    ∃ w, deliverAll B resolves (start B resolves request) evs = some w ∧ sinkCount w.trace ≤ 1 ∧
      (∀ ev : Event, w.session.running_ = true → ev.op ∈ w.pending → ev.terminating = true →
        ∃ w' r, deliver B resolves w ev = some w' ∧ w.session.response_ = some r ∧
          sinkCount w.trace = 0 ∧ sinkCount w'.trace = 1 ∧
          yielded w'.trace = [{ r with error_code_ := ev.status }] ∧
          w'.session.response_ = some { r with error_code_ := ev.status } ∧
          w'.session.running_ = false) ∧
      (∀ ev : Event, sinkCount w.trace = 1 →
        ∃ w', deliver B resolves w ev = some w' ∧ w'.trace = w.trace ∧
          w'.session.response_ = w.session.response_) := by
  obtain ⟨w, hd, hinv⟩ := deliverAll_inv B resolves evs (start B resolves request) (start_inv B resolves request)
  refine ⟨w, hd, inv_sinkCount w hinv, ?_, ?_⟩
  · intro ev hrun hp ht
    have hw := inv_running w hinv hrun
    obtain ⟨w', r, hdel, hr, hterm, hr', htr, -⟩ := deliver_running_terminating B resolves w ev hw hp ht
    refine ⟨w', r, hdel, hr, hw.2.2.2.1, hterm.2.1, ?_, hr', hterm.1⟩
    rw [htr, yielded_append, yielded_append, yielded_nil_of_sinkCount _ hw.2.2.2.1,
      yielded_nil_of_sinkCount _ (sinkCount_clean _)]
    rfl
  · intro ev hs
    obtain ⟨w', hdel, -, htr, hr⟩ := deliver_terminated B resolves w ev (inv_yielded w hinv hs)
    exact ⟨w', hdel, htr, hr⟩

/-! ## C3 -/

/-- C3: in the read loop of either transport, successful reads returning chunks of at
most `BUFFER_SIZE` characters followed by one terminating completion hand the sink,
once, the body so far followed by the chunks in arrival order; from `run(request)`
without delay, once the lookup has returned, after a successful connect (and handshake)
and write, the body is exactly the concatenation of the chunks. -/
theorem body_is_concatenation (B : Nat) (resolves : Resolver) (chunks : List Str) (last : Event)
    (hc : ∀ c ∈ chunks, c.length ≤ B) (ht : last.terminating = true) :
    (∀ (op : Op) (w : World) (r : Response), op = .readTCP ∨ op = .readSSL → w.Running →
      op ∈ w.pending → w.session.response_ = some r → last.op ∈ w.pending →
      ∃ w', deliverAll B resolves w (readEvents op chunks ++ [last]) = some w' ∧
        yielded w'.trace = [⟨r.usrdata_, r.content_ ++ chunks.flatten, last.status⟩]) ∧
    (∀ (request : Request) (d1 d2 : Str), request.delay_timeout_ ≤ 0 →
      resolves (schemeAndHost request.host_).2 request.port_ = true →
      (schemeAndHost request.host_).1 = "tcp".toList →
      last.op = .readTCP ∨ (last.op = .sessionWait ∧ 0 < request.session_timeout_) →
      ∃ w', deliverAll B resolves (start B resolves request)
          ([⟨.connectTCP, .success, d1⟩, ⟨.writeTCP, .success, d2⟩] ++
            (readEvents .readTCP chunks ++ [last])) = some w' ∧
        yielded w'.trace = [⟨request.usrdata_, chunks.flatten, last.status⟩]) ∧
    (∀ (request : Request) (d1 d2 d3 : Str), request.delay_timeout_ ≤ 0 →
      resolves (schemeAndHost request.host_).2 request.port_ = true →
      (schemeAndHost request.host_).1 = "ssl".toList ∨
        (schemeAndHost request.host_).1 = "tls".toList →
      last.op = .readSSL ∨ (last.op = .sessionWait ∧ 0 < request.session_timeout_) →
      ∃ w', deliverAll B resolves (start B resolves request)
          ([⟨.connectSSL, .success, d1⟩, ⟨.handshake, .success, d2⟩,
            ⟨.writeSSL, .success, d3⟩] ++ (readEvents .readSSL chunks ++ [last])) = some w' ∧
        yielded w'.trace = [⟨request.usrdata_, chunks.flatten, last.status⟩]) := by
  refine ⟨?_, ?_, ?_⟩
  · intro op w r hop hw hp hr hl
    obtain ⟨w', hd, hy, -⟩ := reads_then_terminate B resolves op chunks last w r hop hw hp hr hc hl ht
    exact ⟨w', hd, hy⟩
  · intro request d1 d2 hdel hres hs hl
    obtain ⟨w, hd, hw, hp, hr, htm⟩ := receiving_tcp B resolves request d1 d2 hdel hres hs
    have hl' : last.op ∈ w.pending := by
      rcases hl with hl | ⟨hl, hpos⟩
      · rw [hl]; exact hp
      · rw [hl]; exact htm hpos
    obtain ⟨w', hd', hy, -⟩ :=
      reads_then_terminate B resolves .readTCP chunks last w _ (Or.inl rfl) hw hp hr hc hl' ht
    refine ⟨w', ?_, by simpa using hy⟩
    rw [deliverAll_append, hd]
    exact hd'
  · intro request d1 d2 d3 hdel hres hs hl
    obtain ⟨w, hd, hw, hp, hr, htm⟩ := receiving_ssl B resolves request d1 d2 d3 hdel hres hs
    have hl' : last.op ∈ w.pending := by
      rcases hl with hl | ⟨hl, hpos⟩
      · rw [hl]; exact hp
      · rw [hl]; exact htm hpos
    obtain ⟨w', hd', hy, -⟩ :=
      reads_then_terminate B resolves .readSSL chunks last w _ (Or.inr rfl) hw hp hr hc hl' ht
    refine ⟨w', ?_, by simpa using hy⟩
    rw [deliverAll_append, hd]
    exact hd'

/-! ## C9 -/

/-- C9: `yield` on a session that has its response performs, in this order and nothing
else: the running flag is set to false, the deadline timer is cancelled if there is one,
the plain socket is closed if open, the encrypted socket is closed if open, and last the
sink is invoked with the response, which carries the status passed to `yield` and the
body accumulated so far; the session it leaves (the one in force when the sink runs, the
sink call being the last step) is not running and has no open socket.  Every terminating
completion delivered to a running session runs exactly this `yield`. -/
theorem yield_order (s : Session) (resolves : Resolver) (r : Response) (ec : ErrorCode)
    (hr : s.response_ = some r) :
    (∃ s', s.yield ec = some (s',
        [Effect.set_running false] ++
        (if s.session_timer_.isSome then [Effect.timer_cancel] else []) ++
        (if s.tcpIsOpen then [Effect.close_tcp] else []) ++
        (if s.sslIsOpen then [Effect.close_ssl] else []) ++
        [Effect.responseYield ⟨r.usrdata_, r.content_, ec⟩]) ∧
      s'.running_ = false ∧ s'.tcpIsOpen = false ∧ s'.sslIsOpen = false ∧
      s'.response_ = some ⟨r.usrdata_, r.content_, ec⟩) ∧
    (∀ (ev : Event) (n : Nat), s.running_ = true → ev.terminating = true →
      s.handler resolves ev.op ev.ec n = s.yield ev.status) := by
  refine ⟨⟨{ s.clean.1 with response_ := some ⟨r.usrdata_, r.content_, ec⟩ }, ?_, ?_, ?_, ?_,
    rfl⟩, fun ev n hrun ht => handler_terminating s resolves ev n hrun ht⟩
  · rw [yield_eq s r ec hr, clean_effects]
  · exact clean_running s
  · have := clean_tcp_closed s
    simpa [Session.tcpIsOpen] using this
  · have := clean_ssl_closed s
    simpa [Session.sslIsOpen] using this

theorem yield_order_witness :
    ∃ s', receivingSession.yield .eof = some (s',
        [Effect.set_running false, .timer_cancel, .close_tcp,
          .responseYield ⟨7, "PO".toList, .eof⟩]) ∧
      s'.running_ = false ∧ s'.tcpIsOpen = false ∧ s'.sslIsOpen = false ∧
      s'.response_ = some ⟨7, "PO".toList, .eof⟩ :=
  (yield_order receivingSession resolvesAll ⟨7, "PO".toList, .success⟩ .eof rfl).1

/-! ## C4 -/

/-- C4: in a running session, whatever operation is outstanding, the deadline timer
completing with any code but aborted ends the session: the sink is invoked once, with
the timeout status and the body accumulated so far, after which the session is not
running and no socket is open; in a session that is not running the completion does
nothing.  `run(request, session_timeout)` starts the body empty, and registers that
handler exactly when `session_timeout > 0` and the lookup has returned. -/
theorem deadline_fires (s : Session) (resolves : Resolver) (r : Response) (ec : ErrorCode)
    (hrun : s.running_ = true) (hr : s.response_ = some r)
    (hec : ec ≠ .operation_aborted) :
    (∃ s' effects, s.onTimeout ec =
        some (s', effects ++ [Effect.responseYield ⟨r.usrdata_, r.content_, .timed_out⟩]) ∧
      sinkCount effects = 0 ∧ s'.running_ = false ∧ s'.tcpIsOpen = false ∧
      s'.sslIsOpen = false ∧ s'.response_ = some ⟨r.usrdata_, r.content_, .timed_out⟩) ∧
    (∀ (t : Session) (ec' : ErrorCode), t.running_ = false → t.onTimeout ec' = some (t, [])) ∧
    (∀ (t : Session) (request : Request) (timeout : Int),
      (t.run2 resolves request timeout).1.response_ = some ⟨request.usrdata_, [], .success⟩ ∧
      (Op.sessionWait ∈ (t.run2 resolves request timeout).2.filterMap Effect.registers ↔
        0 < timeout ∧ resolves (schemeAndHost request.host_).2 request.port_ = true)) := by
  refine ⟨⟨{ s.clean.1 with response_ := some ⟨r.usrdata_, r.content_, .timed_out⟩ },
    s.clean.2, ?_, sinkCount_clean s, ?_, ?_, ?_, rfl⟩, ?_, ?_⟩
  · rw [Session.onTimeout, ignores_running s ec hrun hec]
    simpa using yield_eq s r .timed_out hr
  · exact clean_running s
  · have := clean_tcp_closed s
    simpa [Session.tcpIsOpen] using this
  · have := clean_ssl_closed s
    simpa [Session.sslIsOpen] using this
  · intro t ec' h
    simp [Session.onTimeout, Session.ignores, h]
  · intro t request timeout
    refine ⟨(run2_running t resolves request timeout).2.1, ?_⟩
    unfold Session.run2 Session.setTimeout
    simp only [gt_iff_lt]
    split_ifs <;> simp_all [Effect.registers]

theorem deadline_fires_witness :
    ∃ s' effects, receivingSession.onTimeout .success =
        some (s', effects ++ [Effect.responseYield ⟨7, "PO".toList, .timed_out⟩]) ∧
      sinkCount effects = 0 ∧ s'.running_ = false ∧ s'.tcpIsOpen = false ∧
      s'.sslIsOpen = false ∧ s'.response_ = some ⟨7, "PO".toList, .timed_out⟩ :=
  (deadline_fires receivingSession resolvesAll ⟨7, "PO".toList, .success⟩ .success rfl rfl
    (by decide)).1

/-! ## C2 -/

/-- C2 (as the code has it): in a running session with body `r.content_`, a read
completion carrying end-of-stream, on either transport, ends the session and hands the
sink one response whose body is `r.content_` unchanged (so of the same length) and whose
status is the end-of-stream code itself, which is an error code, not success. -/
theorem eof_is_reported_as_eof (s : Session) (r : Response) (n : Nat)
    (hrun : s.running_ = true) (hr : s.response_ = some r) :
    (∃ s' effects resp, s.onReadTCP .eof n = some (s', effects ++ [.responseYield resp]) ∧
      sinkCount effects = 0 ∧ s'.running_ = false ∧ resp.content_ = r.content_ ∧
      resp.content_.length = r.content_.length ∧ resp.error_code_ = .eof ∧
      resp.error_code_.failed = true) ∧
    (∃ s' effects resp, s.onReadSSL .eof n = some (s', effects ++ [.responseYield resp]) ∧
      sinkCount effects = 0 ∧ s'.running_ = false ∧ resp.content_ = r.content_ ∧
      resp.content_.length = r.content_.length ∧ resp.error_code_ = .eof ∧
      resp.error_code_.failed = true) := by
  have hi := ignores_running s .eof hrun (by decide)
  have hy := yield_eq s r .eof hr
  constructor
  · refine ⟨{ s.clean.1 with response_ := some ⟨r.usrdata_, r.content_, .eof⟩ }, s.clean.2,
      ⟨r.usrdata_, r.content_, .eof⟩, ?_, sinkCount_clean s, clean_running s, rfl, rfl, rfl, rfl⟩
    rw [Session.onReadTCP, hi]
    simpa [ErrorCode.failed] using hy
  · refine ⟨{ s.clean.1 with response_ := some ⟨r.usrdata_, r.content_, .eof⟩ }, s.clean.2,
      ⟨r.usrdata_, r.content_, .eof⟩, ?_, sinkCount_clean s, clean_running s, rfl, rfl, rfl, rfl⟩
    rw [Session.onReadSSL, hi]
    simpa [ErrorCode.failed] using hy

theorem eof_is_reported_as_eof_witness :
    (∃ s' effects resp, receivingSession.onReadTCP .eof 0 =
        some (s', effects ++ [.responseYield resp]) ∧
      sinkCount effects = 0 ∧ s'.running_ = false ∧ resp.content_ = "PO".toList ∧
      resp.content_.length = 2 ∧ resp.error_code_ = .eof ∧
      resp.error_code_.failed = true) ∧
    (∃ s' effects resp, receivingSession.onReadSSL .eof 0 =
        some (s', effects ++ [.responseYield resp]) ∧
      sinkCount effects = 0 ∧ s'.running_ = false ∧ resp.content_ = "PO".toList ∧
      resp.content_.length = 2 ∧ resp.error_code_ = .eof ∧
      resp.error_code_.failed = true) :=
  eof_is_reported_as_eof receivingSession ⟨7, "PO".toList, .success⟩ 0 rfl rfl

/-- C2 as stated fails: request "PING" to "tcp://127.0.0.1", reply "PONG", then
end-of-stream; the one response handed to the sink has body "PONG" and status `eof`,
and `eof` is not `success`. -/
theorem eof_status_is_not_success :
    (deliverAll 4 resolvesAll (start 4 resolvesAll (pingRequest "tcp://127.0.0.1".toList 5 0))
      [⟨.connectTCP, .success, []⟩, ⟨.writeTCP, .success, []⟩,
        ⟨.readTCP, .success, "PONG".toList⟩, ⟨.readTCP, .eof, []⟩]).map
        (fun w => yielded w.trace) = some [⟨7, "PONG".toList, .eof⟩] ∧
      ErrorCode.eof ≠ ErrorCode.success := by
  decide

/-! ## C6 -/

/-- C6 (as the code has it): in a session that is not running, the handlers of the
deadline timer, connect, handshake, write and read leave the session unchanged and
perform nothing, whatever the error code; the handler of the delay timer does so only
for the aborted code, and for any other code runs `run(request, session_timeout)`, which
sets the running flag. -/
theorem not_running_is_inert (s : Session) (resolves : Resolver) (op : Op) (ec : ErrorCode) (n : Nat)
    (h : s.running_ = false) :
    (op.isDelay = false ∨ ec = .operation_aborted → s.handler resolves op ec n = some (s, [])) ∧
    (∀ (request : Request) (t : Int), ec ≠ .operation_aborted →
      s.handler resolves (.delayWait request t) ec n = some (s.run2 resolves request t) ∧
      (s.run2 resolves request t).1.running_ = true) := by
  constructor
  · rintro (hop | hec)
    · exact handler_not_running s resolves op ec n h hop
    · rw [hec]; exact handler_aborted s resolves op n
  · intro request t hec
    exact ⟨by simp [Session.handler, Session.onDelay, hec], (run2_running s resolves request t).1⟩

theorem not_running_is_inert_witness :
    delayedSession.running_ = false ∧
    delayedSession.handler resolvesAll .readTCP .eof 0 = some (delayedSession, []) ∧
    delayedSession.handler resolvesAll (.delayWait (pingRequest "tcp://127.0.0.1".toList 5 3) 5) .eof 0 =
      some (delayedSession.run2 resolvesAll (pingRequest "tcp://127.0.0.1".toList 5 3) 5) :=
  ⟨by decide,
    (not_running_is_inert delayedSession resolvesAll .readTCP .eof 0 (by decide)).1 (Or.inl rfl),
    ((not_running_is_inert delayedSession resolvesAll .readTCP .eof 0 (by decide)).2
      (pingRequest "tcp://127.0.0.1".toList 5 3) 5 (by decide)).1⟩

/-- C6 as stated fails: after `run` with a delay of three seconds the running flag is
false, and the delay timer's handler, delivered with success, sets it, creates the
response and the socket and issues the connect. -/
theorem delay_handler_mutates_idle_session :
    delayedSession.running_ = false ∧
    (delayedSession.handler resolvesAll (.delayWait (pingRequest "tcp://127.0.0.1".toList 5 3) 5)
      .success 0).map (fun p => (p.1.running_, p.1.response_, p.1.socketTCP_, p.2)) =
      some (true, some ⟨7, [], .success⟩, some ⟨true⟩,
        [.set_running true, .resolve "127.0.0.1".toList "9000".toList,
          .async_wait_session 5, .async_connect_tcp]) ∧
    delayedSession.handler resolvesAll (.delayWait (pingRequest "tcp://127.0.0.1".toList 5 3) 5)
      .success 0 ≠ some (delayedSession, []) := by
  decide

/-! ## C10 -/

theorem deliverAll_no_pending (B : Nat) (resolves : Resolver) (evs : List Event) (w : World) (h : w.pending = []) :
    deliverAll B resolves w evs = some w := by
  induction evs with
  | nil => rfl
  | cons ev evs ih =>
    have : deliver B resolves w ev = some w := deliver_not_pending B resolves w ev (by simp [h])
    simp [deliverAll, this, ih]

/-- C10: every handler, in every session, returns at once on the aborted code: the
session is unchanged, nothing is issued and the sink is not invoked.  When the delay
timer of a delayed run is aborted, no handler remains registered, and whatever
completions follow, the session stays as `run` left it (not running, no response) and
the sink is never invoked. -/
theorem aborted_is_noop (B : Nat) (resolves : Resolver) (s : Session) (op : Op) (n : Nat) (request : Request)
    (d : Str) (evs : List Event) (hd : 0 < request.delay_timeout_) :
    s.handler resolves op .operation_aborted n = some (s, []) ∧
    ∃ w, deliverAll B resolves (start B resolves request)
        (⟨.delayWait request request.session_timeout_, .operation_aborted, d⟩ :: evs) =
        some w ∧
      w.pending = [] ∧ w.session = (start B resolves request).session ∧
      w.trace = (start B resolves request).trace ∧ sinkCount w.trace = 0 ∧
      w.session.running_ = false ∧ w.session.response_ = none := by
  refine ⟨handler_aborted s resolves op n, ?_⟩
  have hd' : request.delay_timeout_ > 0 := hd
  have h1 : deliver B resolves (start B resolves request)
      ⟨.delayWait request request.session_timeout_, .operation_aborted, d⟩ =
      some ⟨(start B resolves request).session, [], (start B resolves request).trace⟩ := by
    simp [deliver, start, Session.run, Session.run3, hd', Effect.registers, World.arrive,
      Op.isRead, handler_aborted]
  refine ⟨⟨(start B resolves request).session, [], (start B resolves request).trace⟩, ?_, rfl, rfl, rfl,
    ?_, ?_, ?_⟩
  · simp only [deliverAll, h1]
    exact deliverAll_no_pending B resolves evs _ rfl
  · simp [start, Session.run, Session.run3, hd', sinkCount, Effect.isYield]
  · simp [start, Session.run, Session.run3, hd', Session.new]
  · simp [start, Session.run, Session.run3, hd', Session.new]

theorem aborted_is_noop_witness :
    receivingSession.handler resolvesAll .readTCP .operation_aborted 2 = some (receivingSession, []) ∧
    ∃ w, deliverAll 4 resolvesAll (start 4 resolvesAll (pingRequest "tcp://127.0.0.1".toList 5 3))
        (⟨.delayWait (pingRequest "tcp://127.0.0.1".toList 5 3) 5, .operation_aborted, []⟩ ::
          [⟨.sessionWait, .success, []⟩, ⟨.connectTCP, .eof, []⟩]) = some w ∧
      w.pending = [] ∧ w.session = (start 4 resolvesAll (pingRequest "tcp://127.0.0.1".toList 5 3)).session ∧
      w.trace = (start 4 resolvesAll (pingRequest "tcp://127.0.0.1".toList 5 3)).trace ∧
      sinkCount w.trace = 0 ∧ w.session.running_ = false ∧ w.session.response_ = none :=
  aborted_is_noop 4 resolvesAll receivingSession .readTCP 2 (pingRequest "tcp://127.0.0.1".toList 5 3) []
    [⟨.sessionWait, .success, []⟩, ⟨.connectTCP, .eof, []⟩] (by decide)

/-! ## C7 -/

/-- As long as the delay timer has not fired, the world stays as `run` left it. -/
theorem delayed_until_fired (B : Nat) (resolves : Resolver) (request : Request) (evs : List Event) (w : World)
    (hp : w.pending = [] ∨ w.pending = [.delayWait request request.session_timeout_])
    (hev : ∀ ev ∈ evs, ev.op.isDelay = true → ev.ec = .operation_aborted) :
    ∃ w', deliverAll B resolves w evs = some w' ∧ w'.session = w.session ∧ w'.trace = w.trace := by
  induction evs generalizing w with
  | nil => exact ⟨w, rfl, rfl, rfl⟩
  | cons ev evs ih =>
    have hev' : ∀ e ∈ evs, e.op.isDelay = true → e.ec = .operation_aborted :=
      fun e he => hev e (List.mem_cons_of_mem _ he)
    by_cases hmem : ev.op ∈ w.pending
    · rcases hp with hp | hp
      · simp [hp] at hmem
      · have hop : ev.op = .delayWait request request.session_timeout_ := by
          simpa [hp] using hmem
        have hab : ev.ec = .operation_aborted := hev ev (List.mem_cons_self _ _) (by rw [hop]; rfl)
        have ha : w.arrive B ev = w.session := arrive_not_read B w ev (by rw [hop]; rfl)
        have hh : (w.arrive B ev).handler resolves ev.op ev.ec (ev.data.take B).length =
            some (w.session, []) := by
          rw [ha, hab]; exact handler_aborted _ resolves _ _
        have hd := deliver_pending B resolves w ev _ _ hmem hh
        obtain ⟨w', hd', hs', ht'⟩ := ih ⟨w.session, w.pending.erase ev.op ++ [], w.trace ++ []⟩
          (Or.inl (by simp [hp, hop])) hev'
        refine ⟨w', ?_, hs', by simpa using ht'⟩
        simp only [deliverAll, hd]
        exact hd'
    · obtain ⟨w', hd', hs', ht'⟩ := ih w hp hev'
      exact ⟨w', by simp only [deliverAll, deliver_not_pending B resolves w ev hmem]; exact hd', hs', ht'⟩

/-- C7: with `delay_timeout > 0`, `run` changes nothing of the session but the delay
timer and performs nothing but the wait on it (so: running flag, response, deadline
timer and sockets untouched, no connect); as long as no delay-timer completion with a
code other than aborted has been delivered the session and the trace stay exactly so;
such a completion runs `run(request, session_timeout)`, which sets the running flag
and, once the lookup has returned, arms the deadline timer when `session_timeout > 0`
and issues the connect of a recognized scheme (when the lookup throws it does nothing
further).  With `delay_timeout <= 0`, `run` is `run(request, session_timeout)` itself. -/
theorem delay_defers_start (B : Nat) (resolves : Resolver) (request : Request) (evs : List Event) :
    (0 < request.delay_timeout_ → ∀ s : Session, s.run resolves request =
      ({ s with delay_timer_ := some ⟨request.delay_timeout_⟩ },
        [.async_wait_delay request.delay_timeout_ request request.session_timeout_])) ∧
    (0 < request.delay_timeout_ →
      (∀ ev ∈ evs, ev.op.isDelay = true → ev.ec = .operation_aborted) →
      ∃ w, deliverAll B resolves (start B resolves request) evs = some w ∧
        w.session = { Session.new B with delay_timer_ := some ⟨request.delay_timeout_⟩ } ∧
        w.trace =
          [.async_wait_delay request.delay_timeout_ request request.session_timeout_]) ∧
    (0 < request.delay_timeout_ → ∀ (ec : ErrorCode) (d : Str), ec ≠ .operation_aborted →
      ∃ w, deliver B resolves (start B resolves request)
          ⟨.delayWait request request.session_timeout_, ec, d⟩ = some w ∧
        (w.session, w.trace) =
          (((start B resolves request).session.run2 resolves request request.session_timeout_).1,
            (start B resolves request).trace ++
              ((start B resolves request).session.run2 resolves request request.session_timeout_).2)) ∧
    (request.delay_timeout_ ≤ 0 → ∀ s : Session,
      s.run resolves request = s.run2 resolves request request.session_timeout_) ∧
    (∀ (s : Session) (t : Int), (s.run2 resolves request t).1.running_ = true ∧
      (resolves (schemeAndHost request.host_).2 request.port_ = true →
        (0 < t → Effect.async_wait_session t ∈ (s.run2 resolves request t).2) ∧
        ((schemeAndHost request.host_).1 = "tcp".toList →
          Effect.async_connect_tcp ∈ (s.run2 resolves request t).2) ∧
        ((schemeAndHost request.host_).1 = "ssl".toList ∨
          (schemeAndHost request.host_).1 = "tls".toList →
          Effect.async_connect_ssl ∈ (s.run2 resolves request t).2)) ∧
      (resolves (schemeAndHost request.host_).2 request.port_ = false →
        (s.run2 resolves request t).2 =
          [.set_running true, .resolve (schemeAndHost request.host_).2 request.port_,
            .system_error])) := by
  refine ⟨?_, ?_, ?_, ?_, ?_⟩
  · intro hd s
    have hd' : request.delay_timeout_ > 0 := hd
    simp [Session.run, Session.run3, hd']
  · intro hd hev
    have hd' : request.delay_timeout_ > 0 := hd
    have hst : start B resolves request = ⟨{ Session.new B with
        delay_timer_ := some ⟨request.delay_timeout_⟩ },
        [.delayWait request request.session_timeout_],
        [.async_wait_delay request.delay_timeout_ request request.session_timeout_]⟩ := by
      simp [start, Session.run, Session.run3, hd', Effect.registers]
    obtain ⟨w, hw, hs, ht⟩ := delayed_until_fired B resolves request evs
      (start B resolves request) (Or.inr (by rw [hst])) hev
    rw [hst] at hs ht
    exact ⟨w, hw, hs, ht⟩
  · intro hd ec d hec
    have hd' : request.delay_timeout_ > 0 := hd
    have hp : Op.delayWait request request.session_timeout_ ∈
        (start B resolves request).pending := by
      simp [start, Session.run, Session.run3, hd', Effect.registers]
    have hh : ((start B resolves request).arrive B
        ⟨.delayWait request request.session_timeout_, ec, d⟩).handler resolves
        (.delayWait request request.session_timeout_) ec (d.take B).length =
        some (((start B resolves request).session.run2 resolves request
            request.session_timeout_).1,
          ((start B resolves request).session.run2 resolves request
            request.session_timeout_).2) := by
      rw [arrive_not_read B (start B resolves request)
        ⟨.delayWait request request.session_timeout_, ec, d⟩ rfl]
      simp [Session.handler, Session.onDelay, hec]
    exact ⟨_, deliver_pending B resolves (start B resolves request)
      ⟨.delayWait request request.session_timeout_, ec, d⟩ _ _ hp hh, rfl⟩
  · intro hd s
    have hd' : ¬ request.delay_timeout_ > 0 := not_lt.mpr hd
    simp [Session.run, Session.run3, hd']
  · intro s t
    refine ⟨(run2_running s resolves request t).1, ?_, ?_⟩
    · intro hres
      refine ⟨?_, ?_, ?_⟩
      · intro ht
        have ht' : t > 0 := ht
        unfold Session.run2 Session.setTimeout
        simp only [hres, ht', if_true]
        split_ifs <;> simp
      · intro hs
        unfold Session.run2 Session.setTimeout
        simp only [hres, hs, if_true]
        split_ifs <;> simp
      · intro hs
        have hne : (schemeAndHost request.host_).1 ≠ "tcp".toList := by
          rcases hs with hs | hs <;> rw [hs] <;> decide
        unfold Session.run2 Session.setTimeout
        simp only [hres, hne, hs, if_true, if_false]
        split_ifs <;> simp
    · intro hres
      unfold Session.run2
      simp [hres]

theorem delay_defers_start_witness :
    (pingRequest "tcp://127.0.0.1".toList 5 3).delay_timeout_ = 3 ∧
    (∃ w, deliverAll 4 resolvesAll (start 4 resolvesAll (pingRequest "tcp://127.0.0.1".toList 5 3))
        [⟨.sessionWait, .success, []⟩, ⟨.connectTCP, .success, []⟩] = some w ∧
      w.session = { Session.new 4 with delay_timer_ := some ⟨3⟩ } ∧
      w.trace = [.async_wait_delay 3 (pingRequest "tcp://127.0.0.1".toList 5 3) 5]) ∧
    (Session.new 4).run resolvesAll (pingRequest "tcp://127.0.0.1".toList 5 0) =
      (Session.new 4).run2 resolvesAll (pingRequest "tcp://127.0.0.1".toList 5 0) 5 :=
  ⟨rfl,
    (delay_defers_start 4 resolvesAll (pingRequest "tcp://127.0.0.1".toList 5 3)
      [⟨.sessionWait, .success, []⟩, ⟨.connectTCP, .success, []⟩]).2.1 (by decide)
      (by decide),
    (delay_defers_start 4 resolvesAll (pingRequest "tcp://127.0.0.1".toList 5 0) []).2.2.2.1 (by decide)
      (Session.new 4)⟩

/-! ## C5 -/

theorem run2_unrecognized (s : Session) (resolves : Resolver) (request : Request) (t : Int)
    (hs : unrecognized request.host_) :
    s.run2 resolves request t =
      (if looksUp resolves request = true then
        (if t > 0 then
          ({ s with running_ := true, request_ := some request,
                    response_ := some ⟨request.usrdata_, [], .success⟩,
                    session_timer_ := some ⟨t⟩ },
            [.set_running true, .resolve (schemeAndHost request.host_).2 request.port_,
              .async_wait_session t])
        else
          ({ s with running_ := true, request_ := some request,
                    response_ := some ⟨request.usrdata_, [], .success⟩ },
            [.set_running true, .resolve (schemeAndHost request.host_).2 request.port_]))
      else
        ({ s with running_ := true, request_ := some request,
                  response_ := some ⟨request.usrdata_, [], .success⟩ },
          [.set_running true, .resolve (schemeAndHost request.host_).2 request.port_,
            .system_error])) := by
  obtain ⟨h1, h2, h3⟩ := hs
  unfold Session.run2 Session.setTimeout looksUp
  by_cases hl : resolves (schemeAndHost request.host_).2 request.port_ = true <;>
  by_cases ht : t > 0 <;>
    simp only [h1, h2, h3, hl, ht, if_true, if_false, or_self, List.cons_append,
      List.nil_append, List.append_nil, Bool.false_eq_true]

theorem stalled_step (B : Nat) (resolves : Resolver) (request : Request) (w : World)
    (ev : Event) (hs : unrecognized request.host_) (hw : w.Stalled resolves request) :
    ∃ w', deliver B resolves w ev = some w' ∧ w'.Stalled resolves request := by
  by_cases hmem : ev.op ∈ w.pending
  swap
  · exact ⟨w, deliver_not_pending B resolves w ev hmem, hw⟩
  obtain ⟨htcp, hssl, hct, hcs, hphase⟩ := hw
  obtain ⟨op, ec, d⟩ := ev
  rcases hphase with ⟨hrun, hy, hp | hp⟩ | ⟨hrun, hresp, hy, hp | ⟨hp, hpos, hlook⟩⟩ |
    ⟨hrun, hpos, hlook, hy, hp⟩
  · simp [hp] at hmem
  · have hop : op = .delayWait request request.session_timeout_ := by simpa [hp] using hmem
    subst hop
    have ha := arrive_not_read B w ⟨.delayWait request request.session_timeout_, ec, d⟩ rfl
    by_cases hec : ec = .operation_aborted
    · have hh : (w.arrive B ⟨.delayWait request request.session_timeout_, ec, d⟩).handler
          resolves (.delayWait request request.session_timeout_) ec (d.take B).length =
          some (w.session, []) := by
        rw [ha, hec]; exact handler_aborted _ resolves _ _
      refine ⟨_, deliver_pending B resolves w _ _ _ hmem hh, htcp, hssl, ?_, ?_,
        Or.inl ⟨hrun, ?_, ?_⟩⟩
      · simpa using hct
      · simpa using hcs
      · simpa using hy
      · left; simp [hp]
    · have hh : (w.arrive B ⟨.delayWait request request.session_timeout_, ec, d⟩).handler
          resolves (.delayWait request request.session_timeout_) ec (d.take B).length =
          some ((w.session.run2 resolves request request.session_timeout_).1,
            (w.session.run2 resolves request request.session_timeout_).2) := by
        rw [ha]; simp [Session.handler, Session.onDelay, hec]
      refine ⟨_, deliver_pending B resolves w _ _ _ hmem hh, ?_⟩
      rw [run2_unrecognized _ resolves _ _ hs]
      by_cases hl : looksUp resolves request = true <;>
      by_cases ht : request.session_timeout_ > 0
      all_goals
        simp [World.Stalled, hl, ht, htcp, hssl, hct, hcs, yielded_append, hy, hp,
          Effect.registers]
        simp [yielded]
  · simp [hp] at hmem
  · have hop : op = .sessionWait := by simpa [hp] using hmem
    subst hop
    have ha := arrive_not_read B w ⟨.sessionWait, ec, d⟩ rfl
    by_cases hec : ec = .operation_aborted
    · have hh : (w.arrive B ⟨.sessionWait, ec, d⟩).handler resolves .sessionWait ec
          (d.take B).length = some (w.session, []) := by
        rw [ha, hec]; exact handler_aborted _ resolves _ _
      refine ⟨_, deliver_pending B resolves w _ _ _ hmem hh, htcp, hssl, ?_, ?_,
        Or.inr (Or.inl ⟨hrun, hresp, ?_, ?_⟩)⟩
      · simpa using hct
      · simpa using hcs
      · simpa using hy
      · left; simp [hp]
    · have hh : (w.arrive B ⟨.sessionWait, ec, d⟩).handler resolves .sessionWait ec
          (d.take B).length =
          some ({ w.session.clean.1 with
              response_ := some ⟨request.usrdata_, [], .timed_out⟩ },
            w.session.clean.2 ++ [.responseYield ⟨request.usrdata_, [], .timed_out⟩]) := by
        rw [ha]
        simp only [Session.handler, Session.onTimeout, ignores_running _ _ hrun hec]
        simpa using yield_eq w.session _ .timed_out hresp
      refine ⟨_, deliver_pending B resolves w _ _ _ hmem hh, ?_⟩
      have hce := clean_effects w.session
      have htc : w.session.tcpIsOpen = false := by simp [Session.tcpIsOpen, htcp]
      have hsc : w.session.sslIsOpen = false := by simp [Session.sslIsOpen, hssl]
      have hcl : w.session.clean.1 = { w.session with running_ := false } := by
        unfold Session.clean
        simp [Session.tcpIsOpen, Session.sslIsOpen, htcp, hssl]
      rw [htc, hsc] at hce
      rw [hce, hcl]
      refine ⟨htcp, hssl, ?_, ?_, Or.inr (Or.inr ⟨rfl, hpos, hlook, ?_, ?_⟩)⟩
      · simp only [List.mem_append, not_or]
        refine ⟨hct, ?_⟩
        split_ifs <;> simp
      · simp only [List.mem_append, not_or]
        refine ⟨hcs, ?_⟩
        split_ifs <;> simp
      · simp only [yielded_append, hy]
        split_ifs <;> simp [yielded]
      · simp only [hp, List.filterMap_append]
        split_ifs <;> simp [Effect.registers]
  · simp [hp] at hmem

theorem stalled_all (B : Nat) (resolves : Resolver) (request : Request) (evs : List Event)
    (w : World) (hs : unrecognized request.host_) (hw : w.Stalled resolves request) :
    ∃ w', deliverAll B resolves w evs = some w' ∧ w'.Stalled resolves request := by
  induction evs generalizing w with
  | nil => exact ⟨w, rfl, hw⟩
  | cons ev evs ih =>
    obtain ⟨w1, hd, h1⟩ := stalled_step B resolves request w ev hs hw
    obtain ⟨w', hd', h'⟩ := ih w1 h1
    exact ⟨w', by simp only [deliverAll, hd]; exact hd', h'⟩

theorem start_stalled (B : Nat) (resolves : Resolver) (request : Request)
    (hs : unrecognized request.host_) : (start B resolves request).Stalled resolves request := by
  unfold start Session.run Session.run3
  by_cases hd : request.delay_timeout_ > 0
  · simp [hd, World.Stalled, Session.new, yielded, Effect.registers]
  · simp only [hd, if_false]
    rw [run2_unrecognized _ resolves _ _ hs]
    by_cases hl : looksUp resolves request = true <;>
    by_cases ht : request.session_timeout_ > 0 <;>
      simp [World.Stalled, hl, ht, Session.new, yielded, Effect.registers]

/-- Once `run(request, session_timeout)` has armed the deadline timer of a run with an
unrecognized scheme, the timer completing with any code but aborted delivers the
timeout response. -/
theorem deadline_after_run2 (B : Nat) (resolves : Resolver) (request : Request) (s0 : Session)
    (tr : List Effect) (ec : ErrorCode) (d : Str) (hs : unrecognized request.host_)
    (hpos : 0 < request.session_timeout_) (hlook : looksUp resolves request = true)
    (htr : sinkCount tr = 0) (hec : ec ≠ .operation_aborted) :
    ∃ w, deliver B resolves
        ⟨(s0.run2 resolves request request.session_timeout_).1,
          (s0.run2 resolves request request.session_timeout_).2.filterMap Effect.registers,
          tr ++ (s0.run2 resolves request request.session_timeout_).2⟩
        ⟨.sessionWait, ec, d⟩ = some w ∧
      yielded w.trace = [⟨request.usrdata_, [], .timed_out⟩] := by
  have h2 := run2_running s0 resolves request request.session_timeout_
  have hpos' : request.session_timeout_ > 0 := hpos
  have hrun : World.Running
      ⟨(s0.run2 resolves request request.session_timeout_).1,
        (s0.run2 resolves request request.session_timeout_).2.filterMap Effect.registers,
        tr ++ (s0.run2 resolves request request.session_timeout_).2⟩ := by
    refine ⟨h2.1, ?_, ?_, ?_, run2_registers s0 resolves request _⟩
    · simp [h2.2.1]
    · simp [h2.2.2.1]
    · show sinkCount (tr ++ _) = 0
      rw [sinkCount_append, htr, run2_sinkCount]
  have hmem : (⟨.sessionWait, ec, d⟩ : Event).op ∈
      (s0.run2 resolves request request.session_timeout_).2.filterMap Effect.registers := by
    rw [run2_unrecognized _ resolves _ _ hs]
    simp [hpos', hlook, Effect.registers]
  have hterm : (⟨.sessionWait, ec, d⟩ : Event).terminating = true := by
    simp [Event.terminating, Op.isDelay, hec]
  obtain ⟨w', r, hdel', hr, -, -, htr', -⟩ :=
    deliver_running_terminating B resolves _ ⟨.sessionWait, ec, d⟩ hrun hmem hterm
  have hr0 : r = ⟨request.usrdata_, [], .success⟩ := by
    have := h2.2.1
    simp only at hr
    rw [this] at hr
    exact (Option.some.inj hr).symm
  subst hr0
  refine ⟨w', hdel', ?_⟩
  have e0 : yielded tr = [] := yielded_nil_of_sinkCount _ htr
  have e1 : yielded (s0.run2 resolves request request.session_timeout_).2 = [] :=
    yielded_nil_of_sinkCount _ (run2_sinkCount s0 resolves request _)
  have e2 : yielded (s0.run2 resolves request request.session_timeout_).1.clean.2 = [] :=
    yielded_nil_of_sinkCount _ (sinkCount_clean _)
  rw [htr']
  simp only [yielded_append]
  rw [e0, e1, e2]
  rfl

/-- C5 (as the code has it): with a scheme that is none of "tcp", "ssl", "tls", and for
every `session_timeout` and `delay_timeout`, `run(request, session_timeout)` creates no
socket and issues no connect, and whatever completions follow `run(request)` no socket
exists and no connect is issued.  The sink is never invoked when `session_timeout <= 0`,
nor when the lookup throws (the exception leaves `run` before `setTimeout`).  When
`session_timeout > 0` and the lookup returns, the deadline timer is armed all the same,
the only response the sink can ever receive is the one of the deadline, with the timeout
status and an empty body, and the deadline timer completing with any code but aborted
does deliver it: right after `run` when `delay_timeout <= 0`, after the delay timer has
completed with a code other than aborted when `delay_timeout > 0`. -/
theorem unrecognized_scheme (B : Nat) (resolves : Resolver) (request : Request)
    (evs : List Event) (hs : unrecognized request.host_) :
    (∀ (s : Session) (t : Int), (s.run2 resolves request t).1.socketTCP_ = s.socketTCP_ ∧
      (s.run2 resolves request t).1.socketSSL_ = s.socketSSL_ ∧
      Effect.async_connect_tcp ∉ (s.run2 resolves request t).2 ∧
      Effect.async_connect_ssl ∉ (s.run2 resolves request t).2 ∧
      (looksUp resolves request = false →
        (s.run2 resolves request t).1.session_timer_ = s.session_timer_ ∧
        (s.run2 resolves request t).2.filterMap Effect.registers = [])) ∧
    (∃ w, deliverAll B resolves (start B resolves request) evs = some w ∧
      w.session.socketTCP_ = none ∧ w.session.socketSSL_ = none ∧
      Effect.async_connect_tcp ∉ w.trace ∧ Effect.async_connect_ssl ∉ w.trace ∧
      (yielded w.trace = [] ∨ (0 < request.session_timeout_ ∧
        looksUp resolves request = true ∧
        yielded w.trace = [⟨request.usrdata_, [], .timed_out⟩])) ∧
      (request.session_timeout_ ≤ 0 → yielded w.trace = []) ∧
      (looksUp resolves request = false → yielded w.trace = [])) ∧
    (0 < request.session_timeout_ → looksUp resolves request = true →
      ∀ (ec ec' : ErrorCode) (d d' : Str), ec ≠ .operation_aborted →
      ec' ≠ .operation_aborted →
      ∃ w, deliverAll B resolves (start B resolves request)
          ((if 0 < request.delay_timeout_
              then [⟨.delayWait request request.session_timeout_, ec', d'⟩] else []) ++
            [⟨.sessionWait, ec, d⟩]) = some w ∧
        yielded w.trace = [⟨request.usrdata_, [], .timed_out⟩]) := by
  refine ⟨?_, ?_, ?_⟩
  · intro s t
    rw [run2_unrecognized s resolves request t hs]
    refine ⟨?_, ?_, ?_, ?_, ?_⟩
    · split_ifs <;> rfl
    · split_ifs <;> rfl
    · split_ifs <;> simp
    · split_ifs <;> simp
    · intro hl
      simp [hl, Effect.registers]
  · obtain ⟨w, hd, htcp, hssl, hct, hcs, hphase⟩ :=
      stalled_all B resolves request evs (start B resolves request) hs
        (start_stalled B resolves request hs)
    refine ⟨w, hd, htcp, hssl, hct, hcs, ?_, ?_, ?_⟩
    · rcases hphase with ⟨-, hy, -⟩ | ⟨-, -, hy, -⟩ | ⟨-, hpos, hlook, hy, -⟩
      · exact Or.inl hy
      · exact Or.inl hy
      · exact Or.inr ⟨hpos, hlook, hy⟩
    · intro hle
      rcases hphase with ⟨-, hy, -⟩ | ⟨-, -, hy, -⟩ | ⟨-, hpos, -, -, -⟩
      · exact hy
      · exact hy
      · exact absurd hpos (not_lt.mpr hle)
    · intro hno
      rcases hphase with ⟨-, hy, -⟩ | ⟨-, -, hy, -⟩ | ⟨-, -, hlook, -, -⟩
      · exact hy
      · exact hy
      · rw [hno] at hlook; cases hlook
  · intro hpos hlook ec ec' d d' hec hec'
    by_cases hdel : 0 < request.delay_timeout_
    · have hd' : request.delay_timeout_ > 0 := hdel
      have hst : start B resolves request = ⟨{ Session.new B with
          delay_timer_ := some ⟨request.delay_timeout_⟩ },
          [.delayWait request request.session_timeout_],
          [.async_wait_delay request.delay_timeout_ request request.session_timeout_]⟩ := by
        simp [start, Session.run, Session.run3, hd', Effect.registers]
      have hp : (⟨.delayWait request request.session_timeout_, ec', d'⟩ : Event).op ∈
          (start B resolves request).pending := by
        rw [hst]; simp
      have hh : ((start B resolves request).arrive B
          ⟨.delayWait request request.session_timeout_, ec', d'⟩).handler resolves
          (.delayWait request request.session_timeout_) ec' (d'.take B).length =
          some (((start B resolves request).session.run2 resolves request
              request.session_timeout_).1,
            ((start B resolves request).session.run2 resolves request
              request.session_timeout_).2) := by
        rw [arrive_not_read B (start B resolves request)
          ⟨.delayWait request request.session_timeout_, ec', d'⟩ rfl]
        simp [Session.handler, Session.onDelay, hec']
      have h1 := deliver_pending B resolves (start B resolves request)
        ⟨.delayWait request request.session_timeout_, ec', d'⟩ _ _ hp hh
      have herase : (start B resolves request).pending.erase
          (Op.delayWait request request.session_timeout_) = [] := by
        rw [hst]; simp
      simp only [herase, List.nil_append] at h1
      have htr : sinkCount (start B resolves request).trace = 0 := by
        rw [hst]; rfl
      obtain ⟨w, hw, hy⟩ := deadline_after_run2 B resolves request
        (start B resolves request).session (start B resolves request).trace ec d hs hpos
        hlook htr hec
      refine ⟨w, ?_, hy⟩
      simp only [hdel, if_true, List.singleton_append, deliverAll, h1, hw]
    · have hd' : ¬ request.delay_timeout_ > 0 := hdel
      have hst : start B resolves request =
          ⟨((Session.new B).run2 resolves request request.session_timeout_).1,
            ((Session.new B).run2 resolves request request.session_timeout_).2.filterMap
              Effect.registers,
            [] ++ ((Session.new B).run2 resolves request request.session_timeout_).2⟩ := by
        simp [start, Session.run, Session.run3, hd']
      obtain ⟨w, hw, hy⟩ := deadline_after_run2 B resolves request (Session.new B) [] ec d
        hs hpos hlook rfl hec
      refine ⟨w, ?_, hy⟩
      rw [hst]
      simp only [hdel, if_false, List.nil_append, deliverAll] at hw ⊢
      simp only [hw]

theorem unrecognized_scheme_witness :
    (schemeAndHost "http://127.0.0.1".toList).1 = "http".toList ∧
    ∃ w, deliverAll 4 resolvesAll (start 4 resolvesAll (pingRequest "http://127.0.0.1".toList 5 3))
        ([⟨.delayWait (pingRequest "http://127.0.0.1".toList 5 3) 5, .success, []⟩] ++
          [⟨.sessionWait, .success, []⟩]) = some w ∧
      yielded w.trace = [⟨7, [], .timed_out⟩] :=
  ⟨by decide,
    (unrecognized_scheme 4 resolvesAll (pingRequest "http://127.0.0.1".toList 5 3) []
      ⟨by decide, by decide, by decide⟩).2.2 (by decide) (by decide) .success .success [] []
      (by decide) (by decide)⟩

/-- C5 as stated fails: host "http://127.0.0.1" (which the lookup resolves) with
`session_timeout = 5` and no delay; the scheme is "http", `run` arms the deadline timer
before it looks at the scheme, and the timer firing hands the sink a response with the
timeout status. -/
theorem unrecognized_scheme_times_out :
    (schemeAndHost "http://127.0.0.1".toList).1 = "http".toList ∧
    (start 4 resolvesAll (pingRequest "http://127.0.0.1".toList 5 0)).pending =
      [.sessionWait] ∧
    (deliverAll 4 resolvesAll (start 4 resolvesAll (pingRequest "http://127.0.0.1".toList 5 0))
      [⟨.sessionWait, .success, []⟩]).map (fun w => (yielded w.trace, sinkCount w.trace)) =
      some ([⟨7, [], .timed_out⟩], 1) := by
  decide

/-! ## Witnesses for C1 and C3 -/

theorem sink_invoked_at_most_once_witness :
    ∃ w w', deliverAll 4 resolvesAll (start 4 resolvesAll (pingRequest "tcp://127.0.0.1".toList 5 0))
        [⟨.connectTCP, .success, []⟩, ⟨.writeTCP, .success, []⟩,
          ⟨.readTCP, .success, "PO".toList⟩] = some w ∧
      w.session.running_ = true ∧ Op.readTCP ∈ w.pending ∧
      deliver 4 resolvesAll w ⟨.readTCP, .eof, []⟩ = some w' ∧ sinkCount w'.trace = 1 ∧
      yielded w'.trace = [⟨7, "PO".toList, .eof⟩] := by
  obtain ⟨w, hw, -, h2, -⟩ := sink_invoked_at_most_once 4 resolvesAll
    (pingRequest "tcp://127.0.0.1".toList 5 0)
    [⟨.connectTCP, .success, []⟩, ⟨.writeTCP, .success, []⟩, ⟨.readTCP, .success, "PO".toList⟩]
  have hc : (deliverAll 4 resolvesAll (start 4 resolvesAll (pingRequest "tcp://127.0.0.1".toList 5 0))
      [⟨.connectTCP, .success, []⟩, ⟨.writeTCP, .success, []⟩,
        ⟨.readTCP, .success, "PO".toList⟩]).map
      (fun w => (w.session.running_, decide (Op.readTCP ∈ w.pending), w.session.response_)) =
      some (true, true, some ⟨7, "PO".toList, .success⟩) := by decide
  rw [hw] at hc
  simp only [Option.map_some', Option.some.injEq, Prod.mk.injEq, decide_eq_true_eq] at hc
  obtain ⟨hrun, hp, hresp⟩ := hc
  obtain ⟨w', r, hd, hr, -, hs1, hy, -⟩ := h2 ⟨.readTCP, .eof, []⟩ hrun hp (by decide)
  rw [hresp] at hr
  cases hr
  exact ⟨w, w', hw, hrun, hp, hd, hs1, hy⟩

theorem body_is_concatenation_witness :
    ∃ w', deliverAll 4 resolvesAll (start 4 resolvesAll (pingRequest "tcp://127.0.0.1".toList 5 0))
        ([⟨.connectTCP, .success, []⟩, ⟨.writeTCP, .success, []⟩] ++
          (readEvents .readTCP ["PO".toList, "NG".toList] ++ [⟨.readTCP, .eof, []⟩])) =
        some w' ∧
      yielded w'.trace = [⟨7, "PONG".toList, .eof⟩] :=
  (body_is_concatenation 4 resolvesAll ["PO".toList, "NG".toList] ⟨.readTCP, .eof, []⟩ (by decide)
    (by decide)).2.1 (pingRequest "tcp://127.0.0.1".toList 5 0) [] [] (by decide) (by decide)
    (by decide) (Or.inl rfl)

/-! ## C8 -/

end btctools.tcpclient
